import Mathlib

/-!
Verification of the sample-sheet core of `metapool` (file
`metapool/sample_sheet.py`): the sectioned-document codec
(`KLSampleSheet._parse` / `KLSampleSheet.write`), the validation pipeline
(`quiet_validate_and_scrub_sample_sheet` and friends), the merger
(`KLSampleSheet.merge`), the lane accessor (`get_lane_number`), the
katharoseq conditional-schema predicates of `MetagenomicSampleSheetv101`,
and the plate-replicate demultiplexer (`sheet_needs_demuxing`,
`demux_sample_sheet`).

The embedding is shallow: a sample sheet is a `Document`; file contents are
modelled at the CSV-row level (`List (List String)`), matching the
`csv.reader`/`csv.writer` view the Python code works with; Python exceptions
are `Except.error`; `pandas.DataFrame` sections are `Table`s whose cells are
`Cell`s (strings or booleans, the two cell types the code produces).
External collaborators (the `bcl_scrub_name` scrubbing function and the
`PlateReplication` well-to-quadrant function) are parameters, as the spec
treats them as opaque pure functions.
-/

namespace Metapool

/-- Python `str.isspace` / `str.strip` whitespace class (ASCII part:
space, \t, \n, \r, \v, \f). -/
def isPySpace (c : Char) : Bool :=
  c.toNat = 32 || (9 ≤ c.toNat && c.toNat ≤ 13)

/-- Model of the external library's `VALID_ASCII` permitted character set
(printable ASCII). -/
def validChar (c : Char) : Bool :=
  32 ≤ c.toNat && c.toNat ≤ 126

/-- Python `str.lower`, for the ASCII strings the sheets contain. -/
def pyLower (s : String) : String :=
  ⟨s.toList.map Char.toLower⟩

/-- Strip leading and trailing Python whitespace from a character list
(Python `str.strip()`). -/
def stripWS (cs : List Char) : List Char :=
  ((cs.dropWhile isPySpace).reverse.dropWhile isPySpace).reverse

/-- Python `str.strip()` on a string. -/
def pyStrip (s : String) : String :=
  ⟨stripWS s.toList⟩

/-- Numeric value of a decimal digit character. -/
def digitVal (c : Char) : Nat := c.toNat - 48

/-- Most-significant-first decimal value of a digit list. -/
def digitsVal (cs : List Char) : Nat :=
  cs.foldl (fun a c => a * 10 + digitVal c) 0

/-- Digit character for a value below ten. -/
def digitChar10 (d : Nat) : Char := Char.ofNat (48 + d)

/-- Little-endian decimal digits of a natural number (empty for zero). -/
def natDigitsLE : Nat → List Nat
  | 0 => []
  | n + 1 => ((n + 1) % 10) :: natDigitsLE ((n + 1) / 10)
decreasing_by exact Nat.div_lt_self (Nat.succ_pos n) (by decide)

/-- Decimal rendering of a natural number (Python `str`). -/
def natStr (n : Nat) : String :=
  if n = 0 then "0" else ⟨(natDigitsLE n).reverse.map digitChar10⟩

/-- Decimal rendering of an integer (Python `str`). -/
def intStr (i : Int) : String :=
  if i < 0 then "-" ++ natStr i.natAbs else natStr i.toNat

/-- All characters satisfy a predicate. -/
def allChars (p : Char → Bool) (s : String) : Bool := s.toList.all p

/-- Decimal digit character. -/
def isDig (c : Char) : Bool := 48 ≤ c.toNat && c.toNat ≤ 57

/-- Core of `int(s)` on an already-stripped character list. -/
def pyIntCore : List Char → Option Int
  | [] => none
  | c :: rest =>
    if c = '-' then
      (if rest ≠ [] && rest.all isDig then some (-(Int.ofNat (digitsVal rest))) else none)
    else if c = '+' then
      (if rest ≠ [] && rest.all isDig then some (Int.ofNat (digitsVal rest)) else none)
    else if (c :: rest).all isDig then some (Int.ofNat (digitsVal (c :: rest))) else none

/-- Python `int(s)`: strip whitespace, optional sign, decimal digits;
`none` models the `ValueError` raise. -/
def pyInt? (s : String) : Option Int :=
  pyIntCore (stripWS s.toList)

/-- Characters strictly before the last `']'` of a list, `none` when no
`']'` occurs.  Implements the greedy group of the section-marker regular
expression `\[(.*)\]`. -/
def beforeLastClose : List Char → Option (List Char)
  | [] => none
  | c :: cs =>
    match beforeLastClose cs with
    | some inner => some (c :: inner)
    | none => if c = ']' then some [] else none

/-- Model of `_section_header_re.match(field)`: a field starting with `'['`
and containing a later `']'` opens the section named between the `'['` and
the last `']'`. -/
def bracketName (s : String) : Option String :=
  match s.toList with
  | [] => none
  | c :: rest =>
      if c = '[' then (beforeLastClose rest).map fun cs => (⟨cs⟩ : String)
      else none

/-- A field that does not begin with `'['` (hence never matches the section
marker pattern). -/
def noBracket (s : String) : Bool :=
  match s.toList with
  | [] => true
  | c :: _ => c ≠ '[' 

/-- `pad_iterable(row, w)` from `KLSampleSheet.write`: right-pad with empty
fields (and truncate) to width `w`. -/
def padTo (w : Nat) (row : List String) : List String :=
  (row ++ List.replicate w "").take w

/-- All characters appearing in a CSV row. -/
def lineChars (line : List String) : List Char :=
  (line.map String.toList).flatten

/-- `_is_empty` from `KLSampleSheet._parse`: a row is empty when
`''.join(line).strip()` is falsy, i.e. every character is whitespace. -/
def lineEmpty (line : List String) : Bool :=
  (lineChars line).all isPySpace

/-- A string with at least one non-whitespace character (a row containing
it is never skipped as empty). -/
def nonBlank (s : String) : Bool :=
  !(s.toList.all isPySpace)

/-- `section[key] = value` on a Python dict-like section: overwrite in
place when the key exists, append otherwise. -/
def dictSet (m : List (String × String)) (k v : String) : List (String × String) :=
  if (m.lookup k).isSome then m.map (fun kv => if kv.1 = k then (k, v) else kv)
  else m ++ [(k, v)]

/-- Run a sequence of `dict[k] = v` assignments. -/
def applyKVs (m : List (String × String)) (kvs : List (String × String)) :
    List (String × String) :=
  kvs.foldl (fun acc kv => dictSet acc kv.1 kv.2) m

/-- `dict(zip(keys, vals))` (`zip` truncates at the shorter list; duplicate
keys overwrite). -/
def pyZip (keys vals : List String) : List (String × String) :=
  applyKVs [] (keys.zip vals)

/-- `getattr(sample, key)` on a parsed sample: the stored value, with the
library's `None`-for-missing default rendered as the empty CSV field. -/
def sget (s : List (String × String)) (k : String) : String :=
  (s.lookup k).getD ""

/-- `KLSampleSheet.column_alts`: external spellings mapped to canonical
Data column names during parsing. -/
def columnAlts : List (String × String) :=
  [("well_description", "Well_description"),
   ("description", "Well_description"),
   ("Description", "Well_description"),
   ("sample_plate", "Sample_Plate")]

/-- `_process_section_header`: rewrite alternate Data column spellings. -/
def processAlt (c : String) : String := (columnAlts.lookup c).getD c

/-- First-occurrence deduplication with an accumulator of seen values
(models iteration over Python `set`/`dict` keys and `pandas` `unique()`,
which preserve first-occurrence order). -/
def dedupAux [DecidableEq α] (seen : List α) : List α → List α
  | [] => []
  | x :: xs => if x ∈ seen then dedupAux seen xs else x :: dedupAux (x :: seen) xs

/-- First-occurrence deduplication. -/
def dedupFirst [DecidableEq α] (l : List α) : List α := dedupAux [] l

/-- Lexicographic order on strings by code point (Python `<` on `str`,
restricted to the ASCII strings in play). -/
def charListLe : List Char → List Char → Bool
  | [], _ => true
  | _ :: _, [] => false
  | a :: as, b :: bs =>
      if a.toNat < b.toNat then true
      else if b.toNat < a.toNat then false
      else charListLe as bs

/-- Python `sorted` on strings (order of diagnostic listings). -/
def sortStrings (l : List String) : List String :=
  l.insertionSort fun a b => charListLe a.toList b.toList

/-- Python `', '.join`. -/
def joinComma : List String → String
  | [] => ""
  | [x] => x
  | x :: xs => x ++ ", " ++ joinComma xs

/-! ## Data model

A `Document` is the in-memory sheet: `Header`/`Settings` sections are
ordered string maps, `Reads` a list of integers, the `Data` section a list
of samples (each an ordered map from canonical column name to string
value), and `Bioinformatics`/`Contact` optional tables.  `others` holds the
opaque key/value sections the parser accepts for unrecognized bracketed
names (`add_section`). -/

/-- A table cell: `pandas` cells in these sheets are strings as parsed,
booleans after boolean normalization. -/
inductive Cell where
  | s (v : String)
  | b (v : Bool)
deriving DecidableEq, Repr

/-- Python `str(cell)` as applied by `csv.writer`. -/
def Cell.toStr : Cell → String
  | .s v => v
  | .b true => "True"
  | .b false => "False"

/-- Python truthiness of a cell (`bool` itself, non-empty for `str`). -/
def Cell.truthy : Cell → Bool
  | .s v => v ≠ ""
  | .b v => v

/-- A `Bioinformatics`/`Contact` section: a `pandas.DataFrame` with named
columns and positional rows. -/
structure Table where
  columns : List String
  rows : List (List Cell)
deriving DecidableEq, Repr

/-- Number of columns of an optional table (0 when absent), as used by the
writer's width computation. -/
def tableCols : Option Table → Nat
  | some t => t.columns.length
  | none => 0

/-- The in-memory sample sheet. -/
structure Document where
  header : List (String × String)
  reads : List Int
  settings : List (String × String)
  samples : List (List (String × String))
  bioinformatics : Option Table
  contact : Option Table
  others : List (String × List (String × String))
deriving DecidableEq, Repr

/-- The library's `all_sample_keys`: union of the samples' keys in order of
first appearance. -/
def allSampleKeys (samples : List (List (String × String))) : List String :=
  samples.foldl (fun acc s => acc ++ ((s.map Prod.fst).filter fun k => !acc.contains k)) []

/-! ## Writer (`KLSampleSheet.write`)

The writer is modelled down to the CSV-row level: `csv_width` is the
maximum of the Data key count, the two table widths and 2; every row of
every section is padded to that width; sections are emitted in the fixed
order with `blank_lines` all-empty rows after each. -/

/-- `csv_width` from `KLSampleSheet.write`. -/
def csvWidth (d : Document) : Nat :=
  max (max (max (allSampleKeys d.samples).length (tableCols d.bioinformatics))
        (tableCols d.contact)) 2

/-- An all-empty padding row. -/
def blankRow (w : Nat) : List String := List.replicate w ""

/-- Rows of a key/value section (`Header`, `Settings`). -/
def kvRows (w : Nat) (sec : List (String × String)) : List (List String) :=
  sec.map fun kv => padTo w [kv.1, kv.2]

/-- Rows of an optional table section: column header then data rows
(nothing when the section is `None` — the writer still emits the marker). -/
def tableRows (w : Nat) : Option Table → List (List String)
  | some t => padTo w t.columns :: t.rows.map fun r => padTo w (r.map Cell.toStr)
  | none => []

/-- All CSV rows produced by `KLSampleSheet.write` for blank-line count
`b`. -/
def writeRows (d : Document) (b : Nat) : List (List String) :=
  let w := csvWidth d
  let K := allSampleKeys d.samples
  ([padTo w ["[Header]"]] ++ kvRows w d.header ++ List.replicate b (blankRow w)) ++
  ([padTo w ["[Reads]"]] ++ d.reads.map (fun r => padTo w [intStr r]) ++
    List.replicate b (blankRow w)) ++
  ([padTo w ["[Settings]"]] ++ kvRows w d.settings ++ List.replicate b (blankRow w)) ++
  ([padTo w ["[Data]"]] ++ [padTo w K] ++
    d.samples.map (fun s => padTo w (K.map (sget s))) ++ List.replicate b (blankRow w)) ++
  ([padTo w ["[Bioinformatics]"]] ++ tableRows w d.bioinformatics ++
    List.replicate b (blankRow w)) ++
  ([padTo w ["[Contact]"]] ++ tableRows w d.contact ++ List.replicate b (blankRow w))

/-- `KLSampleSheet.write`: rejects a non-positive blank-line count, then
emits the rows. -/
def write (d : Document) (b : Nat) : Except String (List (List String)) :=
  if b = 0 then .error "Number of blank lines must be a positive int."
  else .ok (writeRows d b)

/-! ## Parser (`KLSampleSheet._parse`)

A line-at-a-time state machine over CSV rows.  Empty rows are skipped; a
row with characters outside the permitted set is a fatal error; a
`[Name]` first field switches sections (resetting the pending Data
header); otherwise the row is dispatched on the current section. -/

/-- The section names `KLSampleSheet.sections` declares (everything else
goes through `add_section`). -/
def knownSections : List String :=
  ["Header", "Reads", "Settings", "Data", "Bioinformatics", "Contact"]

/-- Parser state. -/
structure PState where
  sectionName : String
  sectionHeader : Option (List String)
  header : List (String × String)
  reads : List Int
  settings : List (String × String)
  samples : List (List (String × String))
  bio : Option Table
  contact : Option Table
  others : List (String × List (String × String))
deriving DecidableEq, Repr

/-- Initial parser state. -/
def initPState : PState :=
  { sectionName := "", sectionHeader := none, header := [], reads := [],
    settings := [], samples := [], bio := none, contact := none, others := [] }

/-- `add_section` for an unrecognized bracketed name (idempotent). -/
def othersAdd (os : List (String × List (String × String))) (name : String) :
    List (String × List (String × String)) :=
  if (os.lookup name).isSome then os else os ++ [(name, [])]

/-- `section[key] = value` inside an added opaque section. -/
def othersSet (os : List (String × List (String × String))) (name k v : String) :
    List (String × List (String × String)) :=
  os.map fun p => if p.1 = name then (p.1, dictSet p.2 k v) else p

/-- One step of `Bioinformatics`/`Contact` parsing: the first row (stripped
of empty fields) fixes the columns; later rows are truncated to the column
count and appended. -/
def tableStep (t? : Option Table) (line : List String) : Table :=
  match t? with
  | some t => { t with rows := t.rows ++ [(line.take t.columns.length).map Cell.s] }
  | none => { columns := line.filter fun v => v ≠ "", rows := [] }

/-- Process one non-skipped CSV row of `KLSampleSheet._parse`. -/
def pstep (st : PState) (line : List String) : Except String PState :=
  if lineEmpty line then .ok st
  else if !(lineChars line).all validChar then
    .error "Sample sheet contains invalid characters"
  else
    match bracketName (line.headD "") with
    | some name =>
        let os := if name ∈ knownSections then st.others else othersAdd st.others name
        .ok { st with sectionName := name, sectionHeader := none, others := os }
    | none =>
      if st.sectionName = "Reads" then
        match pyInt? (line.headD "") with
        | some n => .ok { st with reads := st.reads ++ [n] }
        | none => .error "invalid literal for int()"
      else if st.sectionName = "Data" then
        match st.sectionHeader with
        | some keys => .ok { st with samples := st.samples ++ [pyZip keys line] }
        | none =>
          if line.any (fun f => f = "") then
            .error "Header for [Data] section is not allowed to have empty fields"
          else .ok { st with sectionHeader := some (line.map processAlt) }
      else if st.sectionName = "Bioinformatics" then
        .ok { st with bio := some (tableStep st.bio line) }
      else if st.sectionName = "Contact" then
        .ok { st with contact := some (tableStep st.contact line) }
      else if st.sectionName = "Header" then
        match line with
        | k :: v :: _ => .ok { st with header := dictSet st.header k v }
        | _ => .error "not enough values to unpack"
      else if st.sectionName = "Settings" then
        match line with
        | k :: v :: _ => .ok { st with settings := dictSet st.settings k v }
        | _ => .error "not enough values to unpack"
      else
        match (st.others.lookup st.sectionName), line with
        | some _, k :: v :: _ =>
            .ok { st with others := othersSet st.others st.sectionName k v }
        | some _, _ => .error "not enough values to unpack"
        | none, _ => .error "AttributeError"

/-- Fold the step function over the rows. -/
def parseLines (st : PState) : List (List String) → Except String PState
  | [] => .ok st
  | l :: rest =>
    match pstep st l with
    | .ok st' => parseLines st' rest
    | .error e => .error e

/-- `startswith('# ')` on the first field (leading comment rows). -/
def isCommentRow (line : List String) : Bool :=
  ['#', ' '].isPrefixOf (line.headD "").toList

/-- Drop the contiguous leading block of empty and comment rows
(`_parse` pops them before the main loop). -/
def dropLeading : List (List String) → List (List String)
  | [] => []
  | l :: rest =>
    if lineEmpty l || isCommentRow l then dropLeading rest else l :: rest

/-- `KLSampleSheet._parse` over CSV rows, producing the parsed
`Document`. -/
def parseDoc (lines : List (List String)) : Except String Document :=
  (parseLines initPState (dropLeading lines)).map fun st =>
    { header := st.header, reads := st.reads, settings := st.settings,
      samples := st.samples, bioinformatics := st.bio, contact := st.contact,
      others := st.others }

/-! ## Round-trip infrastructure: padding and row lemmas -/

theorem padTo_eq_append {w : Nat} {row : List String} (h : row.length ≤ w) :
    padTo w row = row ++ List.replicate (w - row.length) "" := by
  unfold padTo
  rw [List.take_append_eq_append_take, List.take_of_length_le h,
    List.take_replicate, Nat.min_eq_left (Nat.sub_le _ _)]

theorem padTo_eq_self {w : Nat} {row : List String} (h : row.length = w) :
    padTo w row = row := by
  rw [padTo_eq_append (Nat.le_of_eq h), h, Nat.sub_self, List.replicate_zero,
    List.append_nil]

theorem padTo_one {w : Nat} (h : 1 ≤ w) (x : String) :
    padTo w [x] = x :: List.replicate (w - 1) "" := by
  rw [padTo_eq_append (show [x].length ≤ w by simp only [List.length_cons, List.length_nil]; omega)]
  rfl

theorem padTo_two {w : Nat} (h : 2 ≤ w) (k v : String) :
    padTo w [k, v] = k :: v :: List.replicate (w - 2) "" := by
  rw [padTo_eq_append (show [k, v].length ≤ w by simp only [List.length_cons, List.length_nil]; omega)]
  rfl

theorem lineChars_cons (x : String) (xs : List String) :
    lineChars (x :: xs) = x.toList ++ lineChars xs := by
  simp [lineChars]

theorem lineChars_replicate_empty (n : Nat) :
    lineChars (List.replicate n "") = [] := by
  induction n with
  | zero => rfl
  | succ m ih => simp [lineChars, List.replicate_succ, ih]

theorem lineEmpty_blank (w : Nat) : lineEmpty (blankRow w) = true := by
  simp [lineEmpty, blankRow, lineChars_replicate_empty]

theorem lineEmpty_one_pad {w : Nat} (h : 1 ≤ w) (x : String) :
    lineEmpty (padTo w [x]) = !nonBlank x := by
  rw [padTo_one h]
  simp [lineEmpty, nonBlank, lineChars_cons, lineChars_replicate_empty]

theorem lineEmpty_two_pad {w : Nat} (h : 2 ≤ w) (k v : String) :
    lineEmpty (padTo w [k, v]) = (!nonBlank k && !nonBlank v) := by
  rw [padTo_two h]
  simp [lineEmpty, nonBlank, lineChars_cons, lineChars_replicate_empty]

theorem bracketName_of_noBracket {s : String} (h : noBracket s = true) :
    bracketName s = none := by
  unfold noBracket at h
  unfold bracketName
  cases hcs : s.toList with
  | nil => rfl
  | cons c rest =>
    rw [hcs] at h
    have hc : ¬ c = '[' := of_decide_eq_true h
    show (if c = '[' then (beforeLastClose rest).map (fun cs => (⟨cs⟩ : String)) else none)
      = none
    rw [if_neg hc]

/-! ## Decimal strings (`str(int)` / `int(str)`) -/

/-- Little-endian digit-list value. -/
def vLE : List Nat → Nat
  | [] => 0
  | d :: ds => d + 10 * vLE ds

theorem vLE_natDigitsLE (n : Nat) : vLE (natDigitsLE n) = n := by
  induction n using Nat.strong_induction_on with
  | _ n ih =>
    match n with
    | 0 => rw [natDigitsLE]; rfl
    | m + 1 =>
      rw [natDigitsLE]
      have hlt : (m + 1) / 10 < m + 1 := Nat.div_lt_self (Nat.succ_pos m) (by decide)
      simp only [vLE, ih _ hlt]
      omega

theorem natDigitsLE_lt10 (n : Nat) : ∀ d ∈ natDigitsLE n, d < 10 := by
  induction n using Nat.strong_induction_on with
  | _ n ih =>
    match n with
    | 0 => intro d hd; simp [natDigitsLE] at hd
    | m + 1 =>
      intro d hd
      rw [natDigitsLE] at hd
      rcases List.mem_cons.mp hd with h | h
      · subst h; exact Nat.mod_lt _ (by decide)
      · exact ih _ (Nat.div_lt_self (Nat.succ_pos m) (by decide)) d h

theorem natDigitsLE_ne_nil {n : Nat} (h : n ≠ 0) : natDigitsLE n ≠ [] := by
  match n with
  | 0 => exact absurd rfl h
  | m + 1 => rw [natDigitsLE]; simp

theorem digitChar10_facts {d : Nat} (h : d < 10) :
    (digitChar10 d).toNat = 48 + d ∧ isDig (digitChar10 d) = true ∧
      isPySpace (digitChar10 d) = false ∧ validChar (digitChar10 d) = true ∧
      digitChar10 d ≠ '[' ∧ digitChar10 d ≠ '-' ∧ digitChar10 d ≠ '+' := by
  interval_cases d <;> refine ⟨by decide, by decide, by decide, by decide, ?_, ?_, ?_⟩ <;>
    decide

theorem digitsVal_append_one (cs : List Char) (c : Char) :
    digitsVal (cs ++ [c]) = digitsVal cs * 10 + digitVal c := by
  simp [digitsVal, List.foldl_append]

theorem digitsVal_rev_map (ds : List Nat) (h : ∀ d ∈ ds, d < 10) :
    digitsVal (ds.reverse.map digitChar10) = vLE ds := by
  induction ds with
  | nil => rfl
  | cons d rest ih =>
    have hd : d < 10 := h d (List.mem_cons_self _ _)
    have hrest : ∀ x ∈ rest, x < 10 := fun x hx => h x (List.mem_cons_of_mem _ hx)
    rw [List.reverse_cons, List.map_append]
    simp only [List.map_cons, List.map_nil]
    rw [digitsVal_append_one, ih hrest]
    have : digitVal (digitChar10 d) = d := by
      unfold digitVal
      rw [(digitChar10_facts hd).1]
      omega
    rw [this, vLE]
    ring

theorem natStr_toList_all_isDig (n : Nat) : (natStr n).toList.all isDig = true := by
  unfold natStr
  split
  · decide
  · rename_i h
    rw [List.all_eq_true]
    intro c hc
    simp only [String.toList] at hc
    rcases List.mem_map.mp hc with ⟨d, hd, rfl⟩
    exact (digitChar10_facts (natDigitsLE_lt10 n d (List.mem_reverse.mp hd))).2.1

theorem natStr_toList_ne_nil (n : Nat) : (natStr n).toList ≠ [] := by
  unfold natStr
  split
  · decide
  · rename_i h
    simpa [String.toList] using natDigitsLE_ne_nil h

theorem isDig_not_space {c : Char} (h : isDig c = true) : isPySpace c = false := by
  unfold isDig at h
  unfold isPySpace
  simp only [Bool.and_eq_true, decide_eq_true_eq] at h
  simp only [Bool.or_eq_false_iff, decide_eq_false_iff_not, Bool.and_eq_false_iff]
  omega

theorem isDig_validChar {c : Char} (h : isDig c = true) : validChar c = true := by
  unfold isDig at h
  unfold validChar
  simp only [Bool.and_eq_true, decide_eq_true_eq] at h ⊢
  omega

theorem isDig_ne_signs {c : Char} (h : isDig c = true) :
    c ≠ '[' ∧ c ≠ '-' ∧ c ≠ '+' := by
  unfold isDig at h
  simp only [Bool.and_eq_true, decide_eq_true_eq] at h
  refine ⟨?_, ?_, ?_⟩ <;> intro hc <;> subst hc <;> exact absurd h (by decide)

theorem dropWhile_eq_self_of_all {p : Char → Bool} {cs : List Char}
    (h : ∀ c ∈ cs, p c = false) : cs.dropWhile p = cs := by
  cases cs with
  | nil => rfl
  | cons c rest =>
    rw [List.dropWhile_cons, h c (List.mem_cons_self _ _)]
    simp

theorem stripWS_eq_self {cs : List Char} (h : ∀ c ∈ cs, isPySpace c = false) :
    stripWS cs = cs := by
  unfold stripWS
  rw [dropWhile_eq_self_of_all h,
    dropWhile_eq_self_of_all (fun c hc => h c (List.mem_reverse.mp hc)),
    List.reverse_reverse]

theorem toList_mk (cs : List Char) : (⟨cs⟩ : String).toList = cs := rfl

theorem natStr_no_space (n : Nat) : ∀ c ∈ (natStr n).toList, isPySpace c = false :=
  fun c hc =>
    isDig_not_space (List.all_eq_true.mp (natStr_toList_all_isDig n) c hc)

theorem pyIntCore_cons (c : Char) (rest : List Char) :
    pyIntCore (c :: rest) =
      (if c = '-' then
        (if rest ≠ [] && rest.all isDig then some (-(Int.ofNat (digitsVal rest))) else none)
      else if c = '+' then
        (if rest ≠ [] && rest.all isDig then some (Int.ofNat (digitsVal rest)) else none)
      else if (c :: rest).all isDig then some (Int.ofNat (digitsVal (c :: rest)))
      else none) := rfl

theorem pyIntCore_digits {cs : List Char} (hne : cs ≠ []) (hdig : cs.all isDig = true) :
    pyIntCore cs = some (Int.ofNat (digitsVal cs)) := by
  cases cs with
  | nil => exact absurd rfl hne
  | cons c rest =>
    have hc : isDig c = true := List.all_eq_true.mp hdig c (List.mem_cons_self _ _)
    have hsigns := isDig_ne_signs hc
    rw [pyIntCore_cons, if_neg hsigns.2.1, if_neg hsigns.2.2, if_pos hdig]

theorem digitsVal_natStr (n : Nat) : digitsVal (natStr n).toList = n := by
  by_cases h0 : n = 0
  · subst h0; decide
  · have : (natStr n).toList = (natDigitsLE n).reverse.map digitChar10 := by
      unfold natStr
      rw [if_neg h0]
      exact toList_mk _
    rw [this, digitsVal_rev_map _ (natDigitsLE_lt10 n), vLE_natDigitsLE]


theorem pyInt?_natStr (n : Nat) : pyInt? (natStr n) = some (Int.ofNat n) := by
  unfold pyInt?
  rw [stripWS_eq_self (natStr_no_space n),
    pyIntCore_digits (natStr_toList_ne_nil n) (natStr_toList_all_isDig n),
    digitsVal_natStr]

theorem intStr_toList_neg (m : Nat) :
    (("-" ++ natStr m) : String).toList = '-' :: (natStr m).toList := rfl

theorem pyInt?_intStr (i : Int) : pyInt? (intStr i) = some i := by
  unfold intStr
  split
  · rename_i hneg
    unfold pyInt?
    rw [intStr_toList_neg]
    have hstrip : stripWS ('-' :: (natStr i.natAbs).toList) =
        '-' :: (natStr i.natAbs).toList := by
      refine stripWS_eq_self ?_
      intro c hc
      rcases List.mem_cons.mp hc with rfl | hmem
      · decide
      · exact natStr_no_space _ c hmem
    rw [hstrip, pyIntCore_cons, if_pos rfl]
    have hcond : (decide ((natStr i.natAbs).toList ≠ []) &&
        (natStr i.natAbs).toList.all isDig) = true := by
      rw [natStr_toList_all_isDig i.natAbs, Bool.and_true, decide_eq_true_eq]
      exact natStr_toList_ne_nil i.natAbs
    rw [if_pos hcond, digitsVal_natStr]
    simp only [Int.ofNat_eq_natCast]
    congr 1
    omega
  · rename_i hpos
    rw [pyInt?_natStr]
    simp only [Int.ofNat_eq_natCast]
    congr 1
    omega

theorem nonBlank_natStr (n : Nat) : nonBlank (natStr n) = true := by
  unfold nonBlank
  cases hcs : (natStr n).toList with
  | nil => exact absurd hcs (natStr_toList_ne_nil n)
  | cons c rest =>
    have hsp : isPySpace c = false := by
      have := natStr_no_space n c (by rw [hcs]; exact List.mem_cons_self _ _)
      exact this
    simp [hsp]

theorem nonBlank_intStr (i : Int) : nonBlank (intStr i) = true := by
  unfold intStr
  split
  · unfold nonBlank
    rw [intStr_toList_neg]
    simp only [List.all_cons, Bool.not_eq_true', Bool.and_eq_false_iff]
    left
    decide
  · exact nonBlank_natStr _

theorem noBracket_of_head_isDig {s : String} {c : Char} {rest : List Char}
    (hcs : s.toList = c :: rest) (hc : isDig c = true) : noBracket s = true := by
  unfold noBracket
  rw [hcs]
  simp only [ne_eq, decide_eq_true_eq]
  exact (isDig_ne_signs hc).1

theorem natStr_head_isDig (n : Nat) :
    ∃ c rest, (natStr n).toList = c :: rest ∧ isDig c = true := by
  cases hcs : (natStr n).toList with
  | nil => exact absurd hcs (natStr_toList_ne_nil n)
  | cons c rest =>
    refine ⟨c, rest, rfl, ?_⟩
    have := natStr_toList_all_isDig n
    rw [hcs] at this
    exact List.all_eq_true.mp this c (List.mem_cons_self _ _)

theorem noBracket_intStr (i : Int) : noBracket (intStr i) = true := by
  unfold intStr
  split
  · unfold noBracket
    rw [intStr_toList_neg]
    rfl
  · obtain ⟨c, rest, hcs, hc⟩ := natStr_head_isDig i.toNat
    exact noBracket_of_head_isDig hcs hc

theorem allChars_natStr (n : Nat) : allChars validChar (natStr n) = true := by
  unfold allChars
  rw [List.all_eq_true]
  intro c hc
  exact isDig_validChar (List.all_eq_true.mp (natStr_toList_all_isDig _) c hc)

theorem allChars_intStr (i : Int) : allChars validChar (intStr i) = true := by
  unfold intStr
  split
  · unfold allChars
    rw [intStr_toList_neg]
    simp only [List.all_cons, Bool.and_eq_true]
    refine ⟨by decide, ?_⟩
    exact allChars_natStr _
  · exact allChars_natStr _

/-! ## Parser-step lemmas -/

theorem parseLines_append (st : PState) (xs ys : List (List String)) :
    parseLines st (xs ++ ys) =
      (match parseLines st xs with
       | .ok st' => parseLines st' ys
       | .error e => .error e) := by
  induction xs generalizing st with
  | nil => rfl
  | cons l rest ih =>
    rw [List.cons_append]
    show (match pstep st l with
          | .ok st' => parseLines st' (rest ++ ys)
          | .error e => .error e) =
        (match (match pstep st l with
                | .ok st' => parseLines st' rest
                | .error e => .error e) with
         | .ok st' => parseLines st' ys
         | .error e => .error e)
    cases pstep st l with
    | ok st' => exact ih st'
    | error e => rfl

theorem pstep_blank {l : List String} (h : lineEmpty l = true) (st : PState) :
    pstep st l = .ok st := by
  unfold pstep
  rw [if_pos h]

theorem parseLines_blanks {ls : List (List String)}
    (h : ∀ l ∈ ls, lineEmpty l = true) (st : PState) :
    parseLines st ls = .ok st := by
  induction ls with
  | nil => rfl
  | cons l rest ih =>
    unfold parseLines
    rw [pstep_blank (h l (List.mem_cons_self _ _)) st]
    exact ih fun l hl => h l (List.mem_cons_of_mem _ hl)

theorem parseLines_replicate_blank (b w : Nat) (st : PState) :
    parseLines st (List.replicate b (blankRow w)) = .ok st :=
  parseLines_blanks
    (fun l hl => by
      have h := List.eq_of_mem_replicate hl
      rw [h]
      exact lineEmpty_blank w) st

theorem pstep_marker {st : PState} {w : Nat} (hw : 1 ≤ w) {x nm : String}
    (hx : bracketName x = some nm) (hnm : nm ∈ knownSections)
    (hnb : nonBlank x = true) (hv : allChars validChar x = true) :
    pstep st (padTo w [x]) =
      .ok { st with sectionName := nm, sectionHeader := none } := by
  have hrow := padTo_one hw x
  have hle : lineEmpty (padTo w [x]) = false := by
    rw [lineEmpty_one_pad hw, hnb]
    rfl
  have hvalid : (lineChars (padTo w [x])).all validChar = true := by
    rw [hrow, lineChars_cons, lineChars_replicate_empty, List.append_nil]
    exact hv
  have hhead : (padTo w [x]).headD "" = x := by rw [hrow]; rfl
  unfold pstep
  rw [hle, hvalid, hhead, hx]
  simp only [Bool.false_eq_true, if_false, Bool.not_true, if_pos hnm]

theorem lineEmpty_kv_pad {w : Nat} (hw : 2 ≤ w) {k v : String}
    (hk : nonBlank k = true) : lineEmpty (padTo w [k, v]) = false := by
  rw [lineEmpty_two_pad hw, hk]
  rfl

theorem valid_kv_pad {w : Nat} (hw : 2 ≤ w) {k v : String}
    (hkv : allChars validChar k = true) (hvv : allChars validChar v = true) :
    (lineChars (padTo w [k, v])).all validChar = true := by
  rw [padTo_two hw, lineChars_cons, lineChars_cons, lineChars_replicate_empty,
    List.append_nil, List.all_append]
  unfold allChars at hkv hvv
  rw [hkv, hvv]
  rfl

/-- Row well-formedness for a `Header`/`Settings` key/value pair. -/
def goodKV (kv : String × String) : Bool :=
  nonBlank kv.1 && allChars validChar kv.1 && allChars validChar kv.2 && noBracket kv.1

theorem goodKV_split {k v : String} (hg : goodKV (k, v) = true) :
    nonBlank k = true ∧ allChars validChar k = true ∧
      allChars validChar v = true ∧ noBracket k = true := by
  unfold goodKV at hg
  simp only [Bool.and_eq_true] at hg
  exact ⟨hg.1.1.1, hg.1.1.2, hg.1.2, hg.2⟩

theorem pstep_kv_header {st : PState} (hsec : st.sectionName = "Header") {w : Nat}
    (hw : 2 ≤ w) {k v : String} (hg : goodKV (k, v) = true) :
    pstep st (padTo w [k, v]) = .ok { st with header := dictSet st.header k v } := by
  obtain ⟨h1, h2, h3, h4⟩ := goodKV_split hg
  have hhead : (padTo w [k, v]).headD "" = k := by rw [padTo_two hw]; rfl
  unfold pstep
  rw [lineEmpty_kv_pad hw h1, valid_kv_pad hw h2 h3, hhead,
    bracketName_of_noBracket h4, hsec]
  simp only [Bool.false_eq_true, if_false, Bool.not_true]
  rw [if_neg (by decide : ¬ ("Header" : String) = "Reads"),
    if_neg (by decide : ¬ ("Header" : String) = "Data"),
    if_neg (by decide : ¬ ("Header" : String) = "Bioinformatics"),
    if_neg (by decide : ¬ ("Header" : String) = "Contact")]
  simp only [reduceIte]
  rw [padTo_two hw]

theorem pstep_kv_settings {st : PState} (hsec : st.sectionName = "Settings") {w : Nat}
    (hw : 2 ≤ w) {k v : String} (hg : goodKV (k, v) = true) :
    pstep st (padTo w [k, v]) = .ok { st with settings := dictSet st.settings k v } := by
  obtain ⟨h1, h2, h3, h4⟩ := goodKV_split hg
  have hhead : (padTo w [k, v]).headD "" = k := by rw [padTo_two hw]; rfl
  unfold pstep
  rw [lineEmpty_kv_pad hw h1, valid_kv_pad hw h2 h3, hhead,
    bracketName_of_noBracket h4, hsec]
  simp only [Bool.false_eq_true, if_false, Bool.not_true]
  rw [if_neg (by decide : ¬ ("Settings" : String) = "Reads"),
    if_neg (by decide : ¬ ("Settings" : String) = "Data"),
    if_neg (by decide : ¬ ("Settings" : String) = "Bioinformatics"),
    if_neg (by decide : ¬ ("Settings" : String) = "Contact"),
    if_neg (by decide : ¬ ("Settings" : String) = "Header")]
  simp only [reduceIte]
  rw [padTo_two hw]

theorem kvRows_cons (w : Nat) (kv : String × String) (rest : List (String × String)) :
    kvRows w (kv :: rest) = padTo w [kv.1, kv.2] :: kvRows w rest := rfl

theorem parseLines_kv_header {sec : List (String × String)}
    (hg : ∀ kv ∈ sec, goodKV kv = true) {w : Nat} (hw : 2 ≤ w) (st : PState)
    (hsec : st.sectionName = "Header") :
    parseLines st (kvRows w sec) = .ok { st with header := applyKVs st.header sec } := by
  induction sec generalizing st with
  | nil => rfl
  | cons kv rest ih =>
    rw [kvRows_cons]
    unfold parseLines
    rw [pstep_kv_header hsec hw (by
      have := hg kv (List.mem_cons_self _ _)
      exact this)]
    exact ih (fun x hx => hg x (List.mem_cons_of_mem _ hx))
      { st with header := dictSet st.header kv.1 kv.2 } hsec

theorem parseLines_kv_settings {sec : List (String × String)}
    (hg : ∀ kv ∈ sec, goodKV kv = true) {w : Nat} (hw : 2 ≤ w) (st : PState)
    (hsec : st.sectionName = "Settings") :
    parseLines st (kvRows w sec) =
      .ok { st with settings := applyKVs st.settings sec } := by
  induction sec generalizing st with
  | nil => rfl
  | cons kv rest ih =>
    rw [kvRows_cons]
    unfold parseLines
    rw [pstep_kv_settings hsec hw (by
      have := hg kv (List.mem_cons_self _ _)
      exact this)]
    exact ih (fun x hx => hg x (List.mem_cons_of_mem _ hx))
      { st with settings := dictSet st.settings kv.1 kv.2 } hsec

theorem pstep_read {st : PState} (hsec : st.sectionName = "Reads") {w : Nat}
    (hw : 1 ≤ w) (r : Int) :
    pstep st (padTo w [intStr r]) = .ok { st with reads := st.reads ++ [r] } := by
  have hle : lineEmpty (padTo w [intStr r]) = false := by
    rw [lineEmpty_one_pad hw, nonBlank_intStr]
    rfl
  have hvalid : (lineChars (padTo w [intStr r])).all validChar = true := by
    rw [padTo_one hw, lineChars_cons, lineChars_replicate_empty, List.append_nil]
    exact allChars_intStr r
  have hhead : (padTo w [intStr r]).headD "" = intStr r := by rw [padTo_one hw]; rfl
  unfold pstep
  rw [hle, hvalid, hhead, bracketName_of_noBracket (noBracket_intStr r), hsec]
  simp only [Bool.false_eq_true, if_false, Bool.not_true]
  simp only [reduceIte]
  rw [pyInt?_intStr]

theorem parseLines_reads {rs : List Int} {w : Nat} (hw : 1 ≤ w) (st : PState)
    (hsec : st.sectionName = "Reads") :
    parseLines st (rs.map fun r => padTo w [intStr r]) =
      .ok { st with reads := st.reads ++ rs } := by
  induction rs generalizing st with
  | nil =>
    rw [List.append_nil]
    rfl
  | cons r rest ih =>
    rw [List.map_cons]
    unfold parseLines
    rw [pstep_read hsec hw r]
    have h2 := ih { st with reads := st.reads ++ [r] } hsec
    have h3 : (st.reads ++ [r]) ++ rest = st.reads ++ (r :: rest) := by
      rw [List.append_assoc]
      rfl
    rw [← h3]
    exact h2

/-! ## Association-list reconstruction lemmas -/

theorem lookup_eq_none_of_not_mem {m : List (String × String)} {k : String}
    (h : k ∉ m.map Prod.fst) : m.lookup k = none := by
  induction m with
  | nil => rfl
  | cons kv rest ih =>
    rw [List.map_cons] at h
    cases kv with
    | mk a b =>
      rw [List.lookup_cons]
      cases hbeq : (k == a) with
      | false => exact ih fun hm => h (List.mem_cons_of_mem _ hm)
      | true =>
        have he : k = a := eq_of_beq hbeq
        exact absurd (by rw [he]; exact List.mem_cons_self _ _) h

theorem dictSet_fresh {m : List (String × String)} {k : String} (v : String)
    (h : m.lookup k = none) : dictSet m k v = m ++ [(k, v)] := by
  unfold dictSet
  rw [h]
  rfl

theorem lookup_append_right_none {m m' : List (String × String)} {k : String}
    (h : m.lookup k = none) (h' : m'.lookup k = none) :
    (m ++ m').lookup k = none := by
  induction m with
  | nil => exact h'
  | cons kv rest ih =>
    cases kv with
    | mk a b =>
      rw [List.lookup_cons] at h
      rw [List.cons_append, List.lookup_cons]
      cases hbeq : (k == a) with
      | true => rw [hbeq] at h; exact absurd h (by simp)
      | false =>
        rw [hbeq] at h
        exact ih h

theorem applyKVs_fresh {kvs m : List (String × String)}
    (hnd : (kvs.map Prod.fst).Nodup) (hfresh : ∀ kv ∈ kvs, m.lookup kv.1 = none) :
    applyKVs m kvs = m ++ kvs := by
  induction kvs generalizing m with
  | nil => rw [List.append_nil]; rfl
  | cons kv rest ih =>
    have hstep : applyKVs m (kv :: rest) = applyKVs (dictSet m kv.1 kv.2) rest := rfl
    rw [hstep, dictSet_fresh kv.2 (hfresh kv (List.mem_cons_self _ _))]
    rw [List.map_cons, List.nodup_cons] at hnd
    have hfresh' : ∀ x ∈ rest, (m ++ [(kv.1, kv.2)]).lookup x.1 = none := by
      intro x hx
      have hne : x.1 ≠ kv.1 := by
        intro he
        have hmem2 : x.1 ∈ rest.map Prod.fst := List.mem_map_of_mem Prod.fst hx
        rw [he] at hmem2
        exact hnd.1 hmem2
      have h2 : ([(kv.1, kv.2)] : List (String × String)).lookup x.1 = none := by
        rw [List.lookup_cons]
        cases hbeq : (x.1 == kv.1) with
        | true => exact absurd (eq_of_beq hbeq) hne
        | false => rfl
      exact lookup_append_right_none (hfresh x (List.mem_cons_of_mem _ hx)) h2
    rw [ih hnd.2 hfresh', List.append_assoc]
    rfl

theorem applyKVs_nil_nodup {kvs : List (String × String)}
    (hnd : (kvs.map Prod.fst).Nodup) : applyKVs [] kvs = kvs :=
  (@applyKVs_fresh kvs [] hnd fun _ _ => List.lookup_nil).trans (List.nil_append kvs)

theorem lookup_of_mem_nodup {s : List (String × String)}
    (hnd : (s.map Prod.fst).Nodup) {kv : String × String} (h : kv ∈ s) :
    s.lookup kv.1 = some kv.2 := by
  induction s with
  | nil => exact absurd h (List.not_mem_nil kv)
  | cons hd rest ih =>
    rw [List.map_cons, List.nodup_cons] at hnd
    rcases List.mem_cons.mp h with rfl | hmem
    · cases kv with
      | mk a b =>
        rw [List.lookup_cons]
        simp
    · cases hd with
      | mk a b =>
        rw [List.lookup_cons]
        cases hbeq : (kv.1 == a) with
        | true =>
          have he : kv.1 = a := eq_of_beq hbeq
          have hmem2 : kv.1 ∈ rest.map Prod.fst := List.mem_map_of_mem Prod.fst hmem
          rw [he] at hmem2
          exact absurd hmem2 hnd.1
        | false => exact ih hnd.2 hmem

theorem map_sget_keys {s : List (String × String)}
    (hnd : (s.map Prod.fst).Nodup) :
    (s.map Prod.fst).map (sget s) = s.map Prod.snd := by
  rw [List.map_map]
  refine List.map_congr_left fun kv hkv => ?_
  unfold sget
  rw [Function.comp_apply, lookup_of_mem_nodup hnd hkv]
  rfl

theorem zip_fst_snd (s : List (String × String)) :
    (s.map Prod.fst).zip (s.map Prod.snd) = s := by
  rw [List.zip_map']
  simp

theorem pyZip_reconstruct {s : List (String × String)}
    (hnd : (s.map Prod.fst).Nodup) :
    pyZip (s.map Prod.fst) ((s.map Prod.fst).map (sget s)) = s := by
  unfold pyZip
  rw [map_sget_keys hnd, zip_fst_snd]
  exact applyKVs_nil_nodup hnd

/-! ## Data and table row lemmas -/

theorem lineEmpty_of_mem_nonBlank {line : List String} {x : String}
    (hx : x ∈ line) (hnb : nonBlank x = true) : lineEmpty line = false := by
  unfold lineEmpty
  unfold nonBlank at hnb
  rw [Bool.not_eq_true'] at hnb
  rw [← Bool.not_eq_true]
  intro hall
  rw [List.all_eq_true] at hall
  rw [← Bool.not_eq_true] at hnb
  refine hnb ?_
  rw [List.all_eq_true]
  intro c hc
  refine hall c ?_
  unfold lineChars
  rw [List.mem_flatten]
  exact ⟨x.toList, List.mem_map_of_mem String.toList hx, hc⟩

theorem lineValid_of_all {line : List String}
    (h : ∀ x ∈ line, allChars validChar x = true) :
    (lineChars line).all validChar = true := by
  rw [List.all_eq_true]
  intro c hc
  unfold lineChars at hc
  rw [List.mem_flatten] at hc
  obtain ⟨cs, hcs, hcmem⟩ := hc
  obtain ⟨x, hx, rfl⟩ := List.mem_map.mp hcs
  have := h x hx
  unfold allChars at this
  exact List.all_eq_true.mp this c hcmem

theorem map_processAlt_id {K : List String} (h : ∀ k ∈ K, processAlt k = k) :
    K.map processAlt = K := by
  induction K with
  | nil => rfl
  | cons k rest ih =>
    rw [List.map_cons, h k (List.mem_cons_self _ _),
      ih fun x hx => h x (List.mem_cons_of_mem _ hx)]

/-- A Data column key as the writer emits it: printable, not blank, not an
alternate spelling, and (in first position) not a section marker. -/
def goodKey (k : String) : Bool :=
  nonBlank k && allChars validChar k && (processAlt k == k)

theorem goodKey_split {k : String} (h : goodKey k = true) :
    nonBlank k = true ∧ allChars validChar k = true ∧ processAlt k = k := by
  unfold goodKey at h
  simp only [Bool.and_eq_true, beq_iff_eq] at h
  exact ⟨h.1.1, h.1.2, h.2⟩

theorem nonBlank_ne_empty {k : String} (h : nonBlank k = true) : k ≠ "" := by
  intro he
  rw [he] at h
  exact absurd h (by decide)

theorem pstep_data_header {st : PState} (hsec : st.sectionName = "Data")
    (hsh : st.sectionHeader = none) {K : List String} (hne : K ≠ [])
    (hk : ∀ k ∈ K, goodKey k = true) (hb : noBracket (K.headD "") = true) :
    pstep st K = .ok { st with sectionHeader := some K } := by
  obtain ⟨k0, Krest, rfl⟩ := List.exists_cons_of_ne_nil hne
  have hk0 := goodKey_split (hk k0 (List.mem_cons_self _ _))
  have hle : lineEmpty (k0 :: Krest) = false :=
    lineEmpty_of_mem_nonBlank (List.mem_cons_self _ _) hk0.1
  have hvalid : (lineChars (k0 :: Krest)).all validChar = true :=
    lineValid_of_all fun x hx => (goodKey_split (hk x hx)).2.1
  have hhead : (k0 :: Krest).headD "" = k0 := rfl
  have hbn : bracketName k0 = none := bracketName_of_noBracket hb
  have hanyempty : (k0 :: Krest).any (fun f => f = "") = false := by
    rw [← Bool.not_eq_true, List.any_eq_true]
    rintro ⟨x, hx, hxe⟩
    exact nonBlank_ne_empty (goodKey_split (hk x hx)).1 (by simpa using hxe)
  unfold pstep
  rw [hle, hvalid, hhead, hbn, hsec]
  simp only [Bool.false_eq_true, if_false, Bool.not_true]
  rw [if_neg (by decide : ¬ ("Data" : String) = "Reads")]
  simp only [reduceIte]
  rw [hsh, hanyempty]
  simp only [Bool.false_eq_true, if_false]
  rw [map_processAlt_id fun x hx => (goodKey_split (hk x hx)).2.2]

theorem pstep_sample_row {st : PState} (hsec : st.sectionName = "Data")
    {K : List String} (hsh : st.sectionHeader = some K) {line : List String}
    (hne : lineEmpty line = false)
    (hv : (lineChars line).all validChar = true)
    (hb : noBracket (line.headD "") = true) :
    pstep st line = .ok { st with samples := st.samples ++ [pyZip K line] } := by
  unfold pstep
  rw [hne, hv, bracketName_of_noBracket hb, hsec]
  simp only [Bool.false_eq_true, if_false, Bool.not_true]
  rw [if_neg (by decide : ¬ ("Data" : String) = "Reads")]
  simp only [reduceIte]
  rw [hsh]

theorem pstep_table_cols {st : PState} {sec : String}
    (hsec : st.sectionName = sec)
    (hs : sec = "Bioinformatics" ∨ sec = "Contact") {line : List String}
    (hne : lineEmpty line = false)
    (hv : (lineChars line).all validChar = true)
    (hb : noBracket (line.headD "") = true) :
    pstep st line =
      (if sec = "Bioinformatics" then
        .ok { st with bio := some (tableStep st.bio line) }
      else
        .ok { st with contact := some (tableStep st.contact line) }) := by
  unfold pstep
  rw [hne, hv, bracketName_of_noBracket hb, hsec]
  simp only [Bool.false_eq_true, if_false, Bool.not_true]
  rcases hs with rfl | rfl
  · rw [if_neg (by decide : ¬ ("Bioinformatics" : String) = "Reads"),
      if_neg (by decide : ¬ ("Bioinformatics" : String) = "Data")]
    simp only [reduceIte]
  · rw [if_neg (by decide : ¬ ("Contact" : String) = "Reads"),
      if_neg (by decide : ¬ ("Contact" : String) = "Data"),
      if_neg (by decide : ¬ ("Contact" : String) = "Bioinformatics")]
    simp only [reduceIte]
    rw [if_neg (by decide : ¬ ("Contact" : String) = "Bioinformatics")]

/-- Whether a cell is a string cell. -/
def Cell.isStr : Cell → Bool
  | .s _ => true
  | .b _ => false

theorem Cell.s_toStr {c : Cell} (h : c.isStr = true) : Cell.s c.toStr = c := by
  cases c with
  | s v => rfl
  | b v => exact absurd h (by cases v <;> decide)

/-- Well-formedness of a `Bioinformatics`/`Contact` table for the
round-trip: printable non-blank column names, string cells, no row that the
parser would skip as blank or mistake for a section marker. -/
def WFTable (t : Table) : Prop :=
  t.columns ≠ [] ∧
  (∀ c ∈ t.columns, nonBlank c = true ∧ allChars validChar c = true) ∧
  noBracket (t.columns.headD "") = true ∧
  (∀ r ∈ t.rows, r.length = t.columns.length ∧
    (∀ c ∈ r, c.isStr = true ∧ allChars validChar c.toStr = true) ∧
    (∃ c ∈ r, nonBlank c.toStr = true) ∧
    noBracket ((r.map Cell.toStr).headD "") = true)

instance (t : Table) : Decidable (WFTable t) := by
  unfold WFTable
  exact inferInstance

/-- `WFTable` lifted to the optional section. -/
def WFOptTable : Option Table → Prop
  | none => True
  | some t => WFTable t

instance (ot : Option Table) : Decidable (WFOptTable ot) := by
  cases ot <;> unfold WFOptTable <;> exact inferInstance

theorem filter_ne_empty_replicate (n : Nat) :
    (List.replicate n "").filter (fun v => v ≠ "") = [] := by
  induction n with
  | zero => rfl
  | succ m ih => rw [List.replicate_succ, List.filter_cons]; simp [ih]

theorem filter_cols_pad {cols : List String} (h : ∀ c ∈ cols, c ≠ "") (n : Nat) :
    (cols ++ List.replicate n "").filter (fun v => v ≠ "") = cols := by
  rw [List.filter_append, filter_ne_empty_replicate, List.append_nil]
  exact List.filter_eq_self.mpr fun a ha => by simpa using h a ha

theorem take_map_pad {r : List Cell} {n w : Nat} (hlen : r.length = n)
    (hw : n ≤ w) :
    ((padTo w (r.map Cell.toStr)).take n).map Cell.s = r.map (fun c => Cell.s c.toStr) := by
  have hlm : (r.map Cell.toStr).length = n := by rw [List.length_map, hlen]
  rw [padTo_eq_append (by rw [hlm]; exact hw)]
  rw [List.take_append_eq_append_take, ← hlm, List.take_of_length_le (Nat.le_refl _)]
  rw [hlm, Nat.sub_self, List.take_zero, List.append_nil, List.map_map]
  rfl

theorem map_s_toStr {r : List Cell} (h : ∀ c ∈ r, c.isStr = true) :
    r.map (fun c => Cell.s c.toStr) = r := by
  induction r with
  | nil => rfl
  | cons c rest ih =>
    rw [List.map_cons, Cell.s_toStr (h c (List.mem_cons_self _ _)),
      ih fun x hx => h x (List.mem_cons_of_mem _ hx)]

theorem lineEmpty_pad_false {w : Nat} {row : List String} (hlen : row.length ≤ w)
    {x : String} (hx : x ∈ row) (hnb : nonBlank x = true) :
    lineEmpty (padTo w row) = false := by
  rw [padTo_eq_append hlen]
  exact lineEmpty_of_mem_nonBlank (List.mem_append_left _ hx) hnb

theorem lineValid_pad {w : Nat} {row : List String} (hlen : row.length ≤ w)
    (h : ∀ x ∈ row, allChars validChar x = true) :
    (lineChars (padTo w row)).all validChar = true := by
  rw [padTo_eq_append hlen]
  refine lineValid_of_all fun x hx => ?_
  rcases List.mem_append.mp hx with hmem | hmem
  · exact h x hmem
  · rw [List.eq_of_mem_replicate hmem]
    rfl

theorem headD_pad {w : Nat} {row : List String} (hlen : row.length ≤ w)
    (hne : row ≠ []) : (padTo w row).headD "" = row.headD "" := by
  rw [padTo_eq_append hlen]
  obtain ⟨x, rest, rfl⟩ := List.exists_cons_of_ne_nil hne
  rfl

theorem pstep_bio_cols {st : PState} (hsec : st.sectionName = "Bioinformatics")
    (hb : st.bio = none) {t : Table} (hwf : WFTable t) {w : Nat}
    (hcl : t.columns.length ≤ w) :
    pstep st (padTo w t.columns) = .ok { st with bio := some ⟨t.columns, []⟩ } := by
  obtain ⟨hne, hcols, hnb, _⟩ := hwf
  obtain ⟨c0, cr, hc⟩ := List.exists_cons_of_ne_nil hne
  have h1 : lineEmpty (padTo w t.columns) = false :=
    lineEmpty_pad_false hcl (by rw [hc]; exact List.mem_cons_self _ _)
      (hcols c0 (by rw [hc]; exact List.mem_cons_self _ _)).1 |>.trans rfl
  have h2 : (lineChars (padTo w t.columns)).all validChar = true :=
    lineValid_pad hcl fun x hx => (hcols x hx).2
  have h3 : noBracket ((padTo w t.columns).headD "") = true := by
    rw [headD_pad hcl hne]
    exact hnb
  have step := pstep_table_cols hsec (Or.inl rfl) h1 h2
    (by rw [headD_pad hcl hne]; exact hnb)
  rw [step]
  simp only [reduceIte]
  unfold tableStep
  rw [hb]
  have hfil : ((padTo w t.columns).filter fun v => v ≠ "") = t.columns := by
    rw [padTo_eq_append hcl]
    exact filter_cols_pad (fun c hcm => nonBlank_ne_empty (hcols c hcm).1) _
  rw [hfil]

theorem pstep_bio_row {st : PState} (hsec : st.sectionName = "Bioinformatics")
    {tc : List String} {rows : List (List Cell)}
    (hb : st.bio = some ⟨tc, rows⟩) {r : List Cell}
    (hlen : r.length = tc.length)
    (hcells : ∀ c ∈ r, c.isStr = true ∧ allChars validChar c.toStr = true)
    (hnbr : ∃ c ∈ r, nonBlank c.toStr = true)
    (hbr : noBracket ((r.map Cell.toStr).headD "") = true) {w : Nat}
    (hcl : tc.length ≤ w) :
    pstep st (padTo w (r.map Cell.toStr)) =
      .ok { st with bio := some ⟨tc, rows ++ [r]⟩ } := by
  have hlm : (r.map Cell.toStr).length ≤ w := by
    rw [List.length_map, hlen]
    exact hcl
  have hrne : r ≠ [] := by
    rintro rfl
    obtain ⟨c, hc, _⟩ := hnbr
    exact absurd hc (List.not_mem_nil c)
  have hmne : r.map Cell.toStr ≠ [] := by
    intro he
    exact hrne (List.map_eq_nil_iff.mp he)
  obtain ⟨c, hc, hcnb⟩ := hnbr
  have h1 : lineEmpty (padTo w (r.map Cell.toStr)) = false :=
    lineEmpty_pad_false hlm (List.mem_map_of_mem Cell.toStr hc) hcnb
  have h2 : (lineChars (padTo w (r.map Cell.toStr))).all validChar = true := by
    refine lineValid_pad hlm fun x hx => ?_
    obtain ⟨cx, hcx, rfl⟩ := List.mem_map.mp hx
    exact (hcells cx hcx).2
  have h3 : noBracket ((padTo w (r.map Cell.toStr)).headD "") = true := by
    rw [headD_pad hlm hmne]
    exact hbr
  have step := pstep_table_cols hsec (Or.inl rfl) h1 h2 h3
  have hts : tableStep (some ⟨tc, rows⟩) (padTo w (r.map Cell.toStr)) =
      ⟨tc, rows ++ [r]⟩ := by
    unfold tableStep
    show Table.mk tc
        (rows ++ [((padTo w (r.map Cell.toStr)).take tc.length).map Cell.s]) =
      Table.mk tc (rows ++ [r])
    rw [take_map_pad hlen hcl, map_s_toStr fun x hx => (hcells x hx).1]
  rw [step]
  simp only [reduceIte]
  rw [hb, hts]

theorem parseLines_bio_rows {st : PState} (hsec : st.sectionName = "Bioinformatics")
    {tc : List String} {rows0 : List (List Cell)}
    (hb : st.bio = some ⟨tc, rows0⟩) {rows : List (List Cell)}
    (hwfr : ∀ r ∈ rows, r.length = tc.length ∧
      (∀ c ∈ r, c.isStr = true ∧ allChars validChar c.toStr = true) ∧
      (∃ c ∈ r, nonBlank c.toStr = true) ∧
      noBracket ((r.map Cell.toStr).headD "") = true) {w : Nat}
    (hcl : tc.length ≤ w) :
    parseLines st (rows.map fun r => padTo w (r.map Cell.toStr)) =
      .ok { st with bio := some ⟨tc, rows0 ++ rows⟩ } := by
  induction rows generalizing st rows0 with
  | nil =>
    rw [List.map_nil, List.append_nil, ← hb]
    cases st
    rfl
  | cons r rest ih =>
    obtain ⟨hl, hc, hn, hbr⟩ := hwfr r (List.mem_cons_self _ _)
    rw [List.map_cons]
    unfold parseLines
    rw [pstep_bio_row hsec hb hl hc hn hbr hcl]
    have h2 := @ih { st with bio := some ⟨tc, rows0 ++ [r]⟩ } hsec (rows0 ++ [r]) rfl
      (fun x hx => hwfr x (List.mem_cons_of_mem _ hx))
    have h3 : rows0 ++ (r :: rest) = (rows0 ++ [r]) ++ rest := by
      rw [List.append_assoc]
      rfl
    rw [h3]
    exact h2

theorem pstep_contact_cols {st : PState} (hsec : st.sectionName = "Contact")
    (hb : st.contact = none) {t : Table} (hwf : WFTable t) {w : Nat}
    (hcl : t.columns.length ≤ w) :
    pstep st (padTo w t.columns) = .ok { st with contact := some ⟨t.columns, []⟩ } := by
  obtain ⟨hne, hcols, hnb, _⟩ := hwf
  obtain ⟨c0, cr, hc⟩ := List.exists_cons_of_ne_nil hne
  have h1 : lineEmpty (padTo w t.columns) = false :=
    lineEmpty_pad_false hcl (by rw [hc]; exact List.mem_cons_self _ _)
      (hcols c0 (by rw [hc]; exact List.mem_cons_self _ _)).1
  have h2 : (lineChars (padTo w t.columns)).all validChar = true :=
    lineValid_pad hcl fun x hx => (hcols x hx).2
  have step := pstep_table_cols hsec (Or.inr rfl) h1 h2
    (by rw [headD_pad hcl hne]; exact hnb)
  rw [step, if_neg (by decide : ¬ ("Contact" : String) = "Bioinformatics")]
  have hts : tableStep st.contact (padTo w t.columns) = ⟨t.columns, []⟩ := by
    rw [hb]
    unfold tableStep
    show Table.mk ((padTo w t.columns).filter fun v => v ≠ "") [] = Table.mk t.columns []
    rw [padTo_eq_append hcl,
      filter_cols_pad (fun c hcm => nonBlank_ne_empty (hcols c hcm).1) _]
  rw [hts]

theorem pstep_contact_row {st : PState} (hsec : st.sectionName = "Contact")
    {tc : List String} {rows : List (List Cell)}
    (hb : st.contact = some ⟨tc, rows⟩) {r : List Cell}
    (hlen : r.length = tc.length)
    (hcells : ∀ c ∈ r, c.isStr = true ∧ allChars validChar c.toStr = true)
    (hnbr : ∃ c ∈ r, nonBlank c.toStr = true)
    (hbr : noBracket ((r.map Cell.toStr).headD "") = true) {w : Nat}
    (hcl : tc.length ≤ w) :
    pstep st (padTo w (r.map Cell.toStr)) =
      .ok { st with contact := some ⟨tc, rows ++ [r]⟩ } := by
  have hlm : (r.map Cell.toStr).length ≤ w := by
    rw [List.length_map, hlen]
    exact hcl
  have hrne : r ≠ [] := by
    rintro rfl
    obtain ⟨c, hc, _⟩ := hnbr
    exact absurd hc (List.not_mem_nil c)
  have hmne : r.map Cell.toStr ≠ [] := by
    intro he
    exact hrne (List.map_eq_nil_iff.mp he)
  obtain ⟨c, hc, hcnb⟩ := hnbr
  have h1 : lineEmpty (padTo w (r.map Cell.toStr)) = false :=
    lineEmpty_pad_false hlm (List.mem_map_of_mem Cell.toStr hc) hcnb
  have h2 : (lineChars (padTo w (r.map Cell.toStr))).all validChar = true := by
    refine lineValid_pad hlm fun x hx => ?_
    obtain ⟨cx, hcx, rfl⟩ := List.mem_map.mp hx
    exact (hcells cx hcx).2
  have h3 : noBracket ((padTo w (r.map Cell.toStr)).headD "") = true := by
    rw [headD_pad hlm hmne]
    exact hbr
  have step := pstep_table_cols hsec (Or.inr rfl) h1 h2 h3
  have hts : tableStep (some ⟨tc, rows⟩) (padTo w (r.map Cell.toStr)) =
      ⟨tc, rows ++ [r]⟩ := by
    unfold tableStep
    show Table.mk tc
        (rows ++ [((padTo w (r.map Cell.toStr)).take tc.length).map Cell.s]) =
      Table.mk tc (rows ++ [r])
    rw [take_map_pad hlen hcl, map_s_toStr fun x hx => (hcells x hx).1]
  rw [step, if_neg (by decide : ¬ ("Contact" : String) = "Bioinformatics"), hb, hts]

theorem parseLines_contact_rows {st : PState} (hsec : st.sectionName = "Contact")
    {tc : List String} {rows0 : List (List Cell)}
    (hb : st.contact = some ⟨tc, rows0⟩) {rows : List (List Cell)}
    (hwfr : ∀ r ∈ rows, r.length = tc.length ∧
      (∀ c ∈ r, c.isStr = true ∧ allChars validChar c.toStr = true) ∧
      (∃ c ∈ r, nonBlank c.toStr = true) ∧
      noBracket ((r.map Cell.toStr).headD "") = true) {w : Nat}
    (hcl : tc.length ≤ w) :
    parseLines st (rows.map fun r => padTo w (r.map Cell.toStr)) =
      .ok { st with contact := some ⟨tc, rows0 ++ rows⟩ } := by
  induction rows generalizing st rows0 with
  | nil =>
    rw [List.map_nil, List.append_nil, ← hb]
    cases st
    rfl
  | cons r rest ih =>
    obtain ⟨hl, hc, hn, hbr⟩ := hwfr r (List.mem_cons_self _ _)
    rw [List.map_cons]
    unfold parseLines
    rw [pstep_contact_row hsec hb hl hc hn hbr hcl]
    have h2 := @ih { st with contact := some ⟨tc, rows0 ++ [r]⟩ } hsec (rows0 ++ [r]) rfl
      (fun x hx => hwfr x (List.mem_cons_of_mem _ hx))
    have h3 : rows0 ++ (r :: rest) = (rows0 ++ [r]) ++ rest := by
      rw [List.append_assoc]
      rfl
    rw [h3]
    exact h2

theorem parseLines_tableOpt_bio {st : PState} (hsec : st.sectionName = "Bioinformatics")
    (hb : st.bio = none) {ot : Option Table} (hwf : WFOptTable ot) {w : Nat}
    (hcl : tableCols ot ≤ w) :
    parseLines st (tableRows w ot) = .ok { st with bio := ot } := by
  cases ot with
  | none =>
    obtain ⟨sn, sh, hd, rd, stg, smp, bv, ct, oth⟩ := st
    change bv = none at hb
    subst hb
    rfl
  | some t =>
    obtain ⟨hne, hcols, hnb, hrows⟩ := hwf
    unfold tableRows
    unfold parseLines
    rw [pstep_bio_cols hsec hb ⟨hne, hcols, hnb, hrows⟩ hcl]
    exact @parseLines_bio_rows { st with bio := some ⟨t.columns, []⟩ } hsec
      t.columns [] rfl t.rows hrows w hcl

theorem parseLines_tableOpt_contact {st : PState} (hsec : st.sectionName = "Contact")
    (hb : st.contact = none) {ot : Option Table} (hwf : WFOptTable ot) {w : Nat}
    (hcl : tableCols ot ≤ w) :
    parseLines st (tableRows w ot) = .ok { st with contact := ot } := by
  cases ot with
  | none =>
    obtain ⟨sn, sh, hd, rd, stg, smp, bv, ct, oth⟩ := st
    change ct = none at hb
    subst hb
    rfl
  | some t =>
    obtain ⟨hne, hcols, hnb, hrows⟩ := hwf
    unfold tableRows
    unfold parseLines
    rw [pstep_contact_cols hsec hb ⟨hne, hcols, hnb, hrows⟩ hcl]
    exact @parseLines_contact_rows { st with contact := some ⟨t.columns, []⟩ } hsec
      t.columns [] rfl t.rows hrows w hcl

/-- Per-sample well-formedness for the round-trip: printable values, at
least one visibly non-blank value (so the row is not skipped as empty), and
a first value that is not a section marker. -/
def WFSample (s : List (String × String)) : Prop :=
  (∀ kv ∈ s, allChars validChar kv.2 = true) ∧
  (∃ kv ∈ s, nonBlank kv.2 = true) ∧
  noBracket ((s.map Prod.snd).headD "") = true

instance (s : List (String × String)) : Decidable (WFSample s) := by
  unfold WFSample
  exact inferInstance

theorem pstep_one_sample {st : PState} (hsec : st.sectionName = "Data")
    {K : List String} (hsh : st.sectionHeader = some K) (hnd : K.Nodup)
    {s : List (String × String)} (hks : s.map Prod.fst = K) (hwfs : WFSample s)
    {w : Nat} (hKw : K.length = w) :
    pstep st (padTo w (K.map (sget s))) = .ok { st with samples := st.samples ++ [s] } := by
  obtain ⟨hvals, ⟨kv, hkv, hnb⟩, hbr⟩ := hwfs
  have hnds : (s.map Prod.fst).Nodup := by rw [hks]; exact hnd
  have hrow : K.map (sget s) = s.map Prod.snd := by
    rw [← hks]
    exact map_sget_keys hnds
  have hlen : (K.map (sget s)).length = w := by rw [List.length_map, hKw]
  have hpad : padTo w (K.map (sget s)) = K.map (sget s) := padTo_eq_self hlen
  have h1 : lineEmpty (K.map (sget s)) = false := by
    rw [hrow]
    exact lineEmpty_of_mem_nonBlank (List.mem_map_of_mem Prod.snd hkv) hnb
  have h2 : (lineChars (K.map (sget s))).all validChar = true := by
    rw [hrow]
    refine lineValid_of_all fun x hx => ?_
    obtain ⟨kv2, hkv2, rfl⟩ := List.mem_map.mp hx
    exact hvals kv2 hkv2
  have h3 : noBracket ((K.map (sget s)).headD "") = true := by
    rw [hrow]
    exact hbr
  rw [hpad, pstep_sample_row hsec hsh h1 h2 h3]
  have hz : pyZip K (K.map (sget s)) = s := by
    rw [← hks] at *
    exact pyZip_reconstruct hnds
  rw [hz]

theorem parseLines_samples {st : PState} (hsec : st.sectionName = "Data")
    {K : List String} (hsh : st.sectionHeader = some K) (hnd : K.Nodup)
    {samples : List (List (String × String))}
    (hks : ∀ s ∈ samples, s.map Prod.fst = K)
    (hwfs : ∀ s ∈ samples, WFSample s) {w : Nat} (hKw : K.length = w) :
    parseLines st (samples.map fun s => padTo w (K.map (sget s))) =
      .ok { st with samples := st.samples ++ samples } := by
  induction samples generalizing st with
  | nil =>
    rw [List.map_nil, List.append_nil]
    cases st
    rfl
  | cons s rest ih =>
    rw [List.map_cons]
    unfold parseLines
    rw [pstep_one_sample hsec hsh hnd (hks s (List.mem_cons_self _ _))
      (hwfs s (List.mem_cons_self _ _)) hKw]
    have h2 := @ih { st with samples := st.samples ++ [s] } hsec hsh
      (fun x hx => hks x (List.mem_cons_of_mem _ hx))
      (fun x hx => hwfs x (List.mem_cons_of_mem _ hx))
    have h3 : st.samples ++ (s :: rest) = (st.samples ++ [s]) ++ rest := by
      rw [List.append_assoc]
      rfl
    rw [h3]
    exact h2

theorem parseLines_block {st st1 st2 : PState} {marker : List String}
    {content : List (List String)} {b w : Nat}
    (h1 : pstep st marker = .ok st1)
    (h2 : parseLines st1 content = .ok st2) :
    parseLines st ((marker :: content) ++ List.replicate b (blankRow w)) = .ok st2 := by
  rw [parseLines_append]
  have hmc : parseLines st (marker :: content) = .ok st2 := by
    unfold parseLines
    rw [h1]
    exact h2
  rw [hmc]
  exact parseLines_replicate_blank b w st2

theorem dropLeading_cons_false {x : List String} (xs : List (List String))
    (h : (lineEmpty x || isCommentRow x) = false) :
    dropLeading (x :: xs) = x :: xs := by
  unfold dropLeading
  rw [h]
  rfl

/-- Well-formedness of a `Document` for the parse∘write round trip: a
non-empty sample list sharing one duplicate-free key list as the writer
emits it, printable non-blank keys and values, no field in marker position
that looks like `[X]`, well-formed optional tables, and a Data section at
least as wide as the Bioinformatics and Contact tables (and at least two
columns wide), so that the writer does not pad the Data header row. -/
def WFDoc (d : Document) : Prop :=
  d.samples ≠ [] ∧
  (allSampleKeys d.samples).Nodup ∧
  (∀ s ∈ d.samples, s.map Prod.fst = allSampleKeys d.samples) ∧
  (∀ k ∈ allSampleKeys d.samples, goodKey k = true) ∧
  noBracket ((allSampleKeys d.samples).headD "") = true ∧
  (∀ s ∈ d.samples, WFSample s) ∧
  (d.header.map Prod.fst).Nodup ∧
  (∀ kv ∈ d.header, goodKV kv = true) ∧
  (d.settings.map Prod.fst).Nodup ∧
  (∀ kv ∈ d.settings, goodKV kv = true) ∧
  WFOptTable d.bioinformatics ∧
  WFOptTable d.contact ∧
  tableCols d.bioinformatics ≤ (allSampleKeys d.samples).length ∧
  tableCols d.contact ≤ (allSampleKeys d.samples).length ∧
  2 ≤ (allSampleKeys d.samples).length

instance (d : Document) : Decidable (WFDoc d) := by
  unfold WFDoc
  exact inferInstance

theorem parseLines_writeRows (d : Document) (b : Nat) (hwf : WFDoc d) :
    parseLines initPState (writeRows d b) =
      .ok ⟨"Contact", none, d.header, d.reads, d.settings, d.samples,
        d.bioinformatics, d.contact, []⟩ := by
  obtain ⟨hsne, hKnd, hks, hkeys, hKbr, hsamp, hhnd, hhkv, hsnd, hskv,
    hbio, hcon, hbw, hcw, h2w⟩ := hwf
  set K := allSampleKeys d.samples with hKdef
  set w := csvWidth d with hwdef
  have hKw : K.length = w := by
    rw [hwdef]
    unfold csvWidth
    rw [← hKdef]
    omega
  have hw2 : 2 ≤ w := by omega
  have hw1 : 1 ≤ w := by omega
  have hKne : K ≠ [] := by
    intro he
    rw [he] at h2w
    exact absurd h2w (by decide)
  have hbw' : tableCols d.bioinformatics ≤ w := by omega
  have hcw' : tableCols d.contact ≤ w := by omega
  -- block A : [Header]
  have hA : parseLines initPState
      ([padTo w ["[Header]"]] ++ kvRows w d.header ++ List.replicate b (blankRow w)) =
      .ok ⟨"Header", none, d.header, [], [], [], none, none, []⟩ := by
    refine parseLines_block
      (pstep_marker hw1
        (by decide : bracketName "[Header]" = some "Header")
        (by decide : "Header" ∈ knownSections) (by decide) (by decide)) ?_
    refine (parseLines_kv_header hhkv hw2
      ⟨"Header", none, [], [], [], [], none, none, []⟩ rfl).trans ?_
    show Except.ok (PState.mk "Header" none (applyKVs [] d.header) [] [] [] none none []) = _
    rw [applyKVs_nil_nodup hhnd]
  -- block B : [Reads]
  have hB : parseLines (⟨"Header", none, d.header, [], [], [], none, none, []⟩ : PState)
      ([padTo w ["[Reads]"]] ++ (d.reads.map fun r => padTo w [intStr r]) ++
        List.replicate b (blankRow w)) =
      .ok ⟨"Reads", none, d.header, d.reads, [], [], none, none, []⟩ := by
    refine parseLines_block
      (pstep_marker hw1
        (by decide : bracketName "[Reads]" = some "Reads")
        (by decide : "Reads" ∈ knownSections) (by decide) (by decide)) ?_
    exact parseLines_reads hw1
      ⟨"Reads", none, d.header, [], [], [], none, none, []⟩ rfl
  -- block C : [Settings]
  have hC : parseLines (⟨"Reads", none, d.header, d.reads, [], [], none, none, []⟩ : PState)
      ([padTo w ["[Settings]"]] ++ kvRows w d.settings ++ List.replicate b (blankRow w)) =
      .ok ⟨"Settings", none, d.header, d.reads, d.settings, [], none, none, []⟩ := by
    refine parseLines_block
      (pstep_marker hw1
        (by decide : bracketName "[Settings]" = some "Settings")
        (by decide : "Settings" ∈ knownSections) (by decide) (by decide)) ?_
    refine (parseLines_kv_settings hskv hw2
      ⟨"Settings", none, d.header, d.reads, [], [], none, none, []⟩ rfl).trans ?_
    show Except.ok
      (PState.mk "Settings" none d.header d.reads (applyKVs [] d.settings) [] none none []) = _
    rw [applyKVs_nil_nodup hsnd]
  -- block D : [Data]
  have hD : parseLines
      (⟨"Settings", none, d.header, d.reads, d.settings, [], none, none, []⟩ : PState)
      ([padTo w ["[Data]"]] ++ [padTo w K] ++
        (d.samples.map fun s => padTo w (K.map (sget s))) ++
        List.replicate b (blankRow w)) =
      .ok ⟨"Data", some K, d.header, d.reads, d.settings, d.samples, none, none, []⟩ := by
    refine parseLines_block
      (pstep_marker hw1
        (by decide : bracketName "[Data]" = some "Data")
        (by decide : "Data" ∈ knownSections) (by decide) (by decide)) ?_
    show parseLines (⟨"Data", none, d.header, d.reads, d.settings, [], none, none, []⟩ : PState)
      (padTo w K :: d.samples.map fun s => padTo w (K.map (sget s))) = _
    unfold parseLines
    rw [padTo_eq_self hKw, pstep_data_header rfl rfl hKne hkeys hKbr]
    exact parseLines_samples rfl rfl hKnd hks hsamp hKw
  -- block E : [Bioinformatics]
  have hE : parseLines
      (⟨"Data", some K, d.header, d.reads, d.settings, d.samples, none, none, []⟩ : PState)
      ([padTo w ["[Bioinformatics]"]] ++ tableRows w d.bioinformatics ++
        List.replicate b (blankRow w)) =
      .ok ⟨"Bioinformatics", none, d.header, d.reads, d.settings, d.samples,
        d.bioinformatics, none, []⟩ := by
    refine parseLines_block
      (pstep_marker hw1
        (by decide : bracketName "[Bioinformatics]" = some "Bioinformatics")
        (by decide : "Bioinformatics" ∈ knownSections) (by decide) (by decide)) ?_
    exact parseLines_tableOpt_bio rfl rfl hbio hbw'
  -- block F : [Contact]
  have hF : parseLines
      (⟨"Bioinformatics", none, d.header, d.reads, d.settings, d.samples,
        d.bioinformatics, none, []⟩ : PState)
      ([padTo w ["[Contact]"]] ++ tableRows w d.contact ++
        List.replicate b (blankRow w)) =
      .ok ⟨"Contact", none, d.header, d.reads, d.settings, d.samples,
        d.bioinformatics, d.contact, []⟩ := by
    refine parseLines_block
      (pstep_marker hw1
        (by decide : bracketName "[Contact]" = some "Contact")
        (by decide : "Contact" ∈ knownSections) (by decide) (by decide)) ?_
    exact parseLines_tableOpt_contact rfl rfl hcon hcw'
  -- chain the six blocks
  have c2 : parseLines initPState
      (([padTo w ["[Header]"]] ++ kvRows w d.header ++ List.replicate b (blankRow w)) ++
       ([padTo w ["[Reads]"]] ++ (d.reads.map fun r => padTo w [intStr r]) ++
         List.replicate b (blankRow w))) =
      .ok ⟨"Reads", none, d.header, d.reads, [], [], none, none, []⟩ := by
    rw [parseLines_append, hA]
    exact hB
  have c3 : parseLines initPState
      ((([padTo w ["[Header]"]] ++ kvRows w d.header ++ List.replicate b (blankRow w)) ++
        ([padTo w ["[Reads]"]] ++ (d.reads.map fun r => padTo w [intStr r]) ++
          List.replicate b (blankRow w))) ++
       ([padTo w ["[Settings]"]] ++ kvRows w d.settings ++ List.replicate b (blankRow w))) =
      .ok ⟨"Settings", none, d.header, d.reads, d.settings, [], none, none, []⟩ := by
    rw [parseLines_append, c2]
    exact hC
  have c4 : parseLines initPState
      (((([padTo w ["[Header]"]] ++ kvRows w d.header ++ List.replicate b (blankRow w)) ++
         ([padTo w ["[Reads]"]] ++ (d.reads.map fun r => padTo w [intStr r]) ++
           List.replicate b (blankRow w))) ++
        ([padTo w ["[Settings]"]] ++ kvRows w d.settings ++ List.replicate b (blankRow w))) ++
       ([padTo w ["[Data]"]] ++ [padTo w K] ++
         (d.samples.map fun s => padTo w (K.map (sget s))) ++
         List.replicate b (blankRow w))) =
      .ok ⟨"Data", some K, d.header, d.reads, d.settings, d.samples, none, none, []⟩ := by
    rw [parseLines_append, c3]
    exact hD
  have c5 : parseLines initPState
      ((((([padTo w ["[Header]"]] ++ kvRows w d.header ++ List.replicate b (blankRow w)) ++
          ([padTo w ["[Reads]"]] ++ (d.reads.map fun r => padTo w [intStr r]) ++
            List.replicate b (blankRow w))) ++
         ([padTo w ["[Settings]"]] ++ kvRows w d.settings ++ List.replicate b (blankRow w))) ++
        ([padTo w ["[Data]"]] ++ [padTo w K] ++
          (d.samples.map fun s => padTo w (K.map (sget s))) ++
          List.replicate b (blankRow w))) ++
       ([padTo w ["[Bioinformatics]"]] ++ tableRows w d.bioinformatics ++
         List.replicate b (blankRow w))) =
      .ok ⟨"Bioinformatics", none, d.header, d.reads, d.settings, d.samples,
        d.bioinformatics, none, []⟩ := by
    rw [parseLines_append, c4]
    exact hE
  have c6 : parseLines initPState
      (((((([padTo w ["[Header]"]] ++ kvRows w d.header ++ List.replicate b (blankRow w)) ++
           ([padTo w ["[Reads]"]] ++ (d.reads.map fun r => padTo w [intStr r]) ++
             List.replicate b (blankRow w))) ++
          ([padTo w ["[Settings]"]] ++ kvRows w d.settings ++
            List.replicate b (blankRow w))) ++
         ([padTo w ["[Data]"]] ++ [padTo w K] ++
           (d.samples.map fun s => padTo w (K.map (sget s))) ++
           List.replicate b (blankRow w))) ++
        ([padTo w ["[Bioinformatics]"]] ++ tableRows w d.bioinformatics ++
          List.replicate b (blankRow w))) ++
       ([padTo w ["[Contact]"]] ++ tableRows w d.contact ++
         List.replicate b (blankRow w))) =
      .ok ⟨"Contact", none, d.header, d.reads, d.settings, d.samples,
        d.bioinformatics, d.contact, []⟩ := by
    rw [parseLines_append, c5]
    exact hF
  exact c6

theorem parseDoc_writeRows (d : Document) (b : Nat) (hwf : WFDoc d) :
    parseDoc (writeRows d b) =
      .ok { header := d.header, reads := d.reads, settings := d.settings,
            samples := d.samples, bioinformatics := d.bioinformatics,
            contact := d.contact, others := [] } := by
  have hw1 : 1 ≤ csvWidth d := by
    unfold csvWidth
    omega
  have hx : (lineEmpty (padTo (csvWidth d) ["[Header]"]) ||
      isCommentRow (padTo (csvWidth d) ["[Header]"])) = false := by
    have h1 : lineEmpty (padTo (csvWidth d) ["[Header]"]) = false := by
      rw [lineEmpty_one_pad hw1]
      decide
    have h2 : isCommentRow (padTo (csvWidth d) ["[Header]"]) = false := by
      unfold isCommentRow
      rw [padTo_one hw1, List.headD_cons]
      decide
    rw [h1, h2]
    rfl
  have hdrop : dropLeading (writeRows d b) = writeRows d b :=
    dropLeading_cons_false _ hx
  unfold parseDoc
  rw [hdrop, parseLines_writeRows d b hwf]
  rfl

/-- A document whose Bioinformatics table is wider (3 columns) than its
Data section (2 sample keys): the writer pads the Data header row with an
empty trailing field, which `_parse` rejects. -/
def c1CounterDoc : Document :=
  { header := [("SheetType", "standard_metag")],
    reads := [],
    settings := [],
    samples := [[("Sample_ID", "s1"), ("Lane", "1")]],
    bioinformatics := some { columns := ["Sample_Project", "QiitaID", "BarcodesAreRC"],
                             rows := [[Cell.s "P_1", Cell.s "1", Cell.s "False"]] },
    contact := none,
    others := [] }

/-- C1 counterexample: the claim asserts that parsing succeeds even when
the Bioinformatics table has more columns than the Data section, the writer
padding the Data header row with empty trailing fields.  The writer does
pad (the CSV width 3 exceeds the 2 Data columns), but `_parse` then raises
`Header for [Data] section is not allowed to have empty fields` on the
padded Data header row, so `parse(write(d))` fails instead of returning a
Document equal to `d`. -/
theorem C1_counterexample :
    write c1CounterDoc 1 = .ok (writeRows c1CounterDoc 1) ∧
    (allSampleKeys c1CounterDoc.samples).length < tableCols c1CounterDoc.bioinformatics ∧
    parseDoc (writeRows c1CounterDoc 1) =
      .error "Header for [Data] section is not allowed to have empty fields" := by
  refine ⟨rfl, by decide, ?_⟩
  rfl

/-- C1 (amended): for every well-formed Document `d` — non-empty samples
sharing one duplicate-free key list, printable non-blank fields, no field
in marker position resembling `[X]`, well-formed optional tables, and a
Data section at least as wide as the Bioinformatics and Contact tables and
at least 2 columns wide (so the writer does not pad the Data header row) —
parsing the rows produced by `write(d)` yields a Document equal to `d` in
every structural field (Header, Reads, Settings, Samples, Bioinformatics,
Contact).  The claim's padding case is removed: when a table is wider than
the Data section the parser rejects the padded Data header row
(`C1_counterexample`). -/
theorem C1_roundtrip (d : Document) (b : Nat) (hb : b ≠ 0) (hwf : WFDoc d) :
    write d b = .ok (writeRows d b) ∧
    parseDoc (writeRows d b) =
      .ok { header := d.header, reads := d.reads, settings := d.settings,
            samples := d.samples, bioinformatics := d.bioinformatics,
            contact := d.contact, others := [] } := by
  constructor
  · unfold write
    rw [if_neg hb]
  · exact parseDoc_writeRows d b hwf

/-- A small well-formed document exercising every section of the codec. -/
def c1WitnessDoc : Document :=
  { header := [("SheetType", "standard_metag"), ("Date", "2023-01-01")],
    reads := [151, 151],
    settings := [("ReverseComplement", "0")],
    samples := [[("Sample_ID", "s1"), ("Sample_Name", "n1"), ("Lane", "1")],
                [("Sample_ID", "s2"), ("Sample_Name", "n2"), ("Lane", "1")]],
    bioinformatics := some { columns := ["Sample_Project", "QiitaID"],
                             rows := [[Cell.s "P_1", Cell.s "1"]] },
    contact := some { columns := ["Sample_Project", "Email"],
                      rows := [[Cell.s "P_1", Cell.s "a@b.c"]] },
    others := [] }

/-- Witness for `C1_roundtrip` at a concrete document. -/
theorem C1_roundtrip_witness :
    (1 : Nat) ≠ 0 ∧ WFDoc c1WitnessDoc ∧
    (write c1WitnessDoc 1 = .ok (writeRows c1WitnessDoc 1) ∧
     parseDoc (writeRows c1WitnessDoc 1) =
       .ok { header := c1WitnessDoc.header, reads := c1WitnessDoc.reads,
             settings := c1WitnessDoc.settings, samples := c1WitnessDoc.samples,
             bioinformatics := c1WitnessDoc.bioinformatics,
             contact := c1WitnessDoc.contact, others := [] }) :=
  ⟨by decide, by decide, C1_roundtrip c1WitnessDoc 1 (by decide) (by decide)⟩

/-! ## Validation pipeline
(`KLSampleSheet.quiet_validate_and_scrub_sample_sheet` and friends)

`ErrorMessage`/`WarningMessage` objects are `Msg.err`/`Msg.warn`; the bare
Python strings that `_normalize_bi_booleans` appends are `Msg.plain` (they
are not Message objects and have no `echo()` method).  The external
`bcl_scrub_name` function is a parameter `scrub`. -/

/-- A diagnostic as collected by the validator. -/
inductive Msg where
  | err (s : String)
  | warn (s : String)
  | plain (s : String)
deriving DecidableEq, Repr

/-- `isinstance(m, ErrorMessage)`. -/
def Msg.isError : Msg → Bool
  | .err _ => true
  | _ => false

/-- Whether `m.echo()` succeeds (bare strings have no `echo`). -/
def Msg.canEcho : Msg → Bool
  | .plain _ => false
  | _ => true

/-- A sheet-profile: the per-class constants the validator consults
(`_HEADER` keys and expected values, `data_columns`, optional katharoseq
columns, `_BIOINFORMATICS_BOOLEANS`). -/
structure Profile where
  headerKeys : List String
  expectedAssay : String
  expectedSheetType : String
  expectedSheetVersion : Int
  dataColumns : List String
  optionalKatharoseqColumns : List String
  katharoseqEnabled : Bool
  bioBooleans : List String
deriving DecidableEq, Repr

/-- Python `str.startswith`. -/
def pyStartsWith (s pre : String) : Bool :=
  pre.toList.isPrefixOf s.toList

/-- `MetagenomicSampleSheetv101.contains_katharoseq_samples`: any sample
whose `Sample_Name` lowercased starts with `'katharo'`. -/
def containsKatharoseqSamples (samples : List (List (String × String))) : Bool :=
  samples.any fun s => pyStartsWith (pyLower (sget s "Sample_Name")) "katharo"

/-- `MetagenomicSampleSheetv101._table_contains_katharoseq_samples`: any
candidate `Sample_Name` value that starts with `'katharo'` (no lowercasing
in the source). -/
def tableContainsKatharoseqSamples (sampleNames : List String) : Bool :=
  sampleNames.any fun n => pyStartsWith n "katharo"

/-- `_get_expected_columns()` with `table=None`: the existing-samples
path. -/
def getExpectedColumns (p : Profile) (samples : List (List (String × String))) :
    List String :=
  if p.katharoseqEnabled && containsKatharoseqSamples samples then
    p.dataColumns ++ p.optionalKatharoseqColumns
  else p.dataColumns

/-- `_get_expected_columns(table)`: the candidate-table path (evaluated on
the table's `Sample_Name` column). -/
def getExpectedColumnsTable (p : Profile) (sampleNames : List String) : List String :=
  if p.katharoseqEnabled && tableContainsKatharoseqSamples sampleNames then
    p.dataColumns ++ p.optionalKatharoseqColumns
  else p.dataColumns

/-- `MetagenomicSampleSheetv100` class constants. -/
def metagenomicV100Profile : Profile :=
  { headerKeys := ["IEMFileVersion", "SheetType", "SheetVersion",
      "Investigator Name", "Experiment Name", "Date", "Workflow",
      "Application", "Assay", "Description", "Chemistry"],
    expectedAssay := "Metagenomic",
    expectedSheetType := "standard_metag",
    expectedSheetVersion := 100,
    dataColumns := ["Sample_ID", "Sample_Name", "Sample_Plate", "well_id_384",
      "I7_Index_ID", "index", "I5_Index_ID", "index2", "Sample_Project",
      "Well_description"],
    optionalKatharoseqColumns := [],
    katharoseqEnabled := false,
    bioBooleans := ["BarcodesAreRC", "HumanFiltering", "contains_replicates"] }

/-- `MetagenomicSampleSheetv101` class constants (adds the optional
katharoseq columns). -/
def metagenomicV101Profile : Profile :=
  { metagenomicV100Profile with
    expectedSheetVersion := 101,
    optionalKatharoseqColumns := ["Kathseq_RackID", "TubeCode",
      "katharo_description", "number_of_cells", "platemap_generation_date",
      "project_abbreviation", "vol_extracted_elution_ul", "well_id_96"],
    katharoseqEnabled := true }

/-- The two quote characters stripped from `SheetVersion` before `int()`. -/
def quoteChars : List Char := [Char.ofNat 34, Char.ofNat 39]

/-- Phase 1 (structural checks).  Returns `Except.error` for the `KeyError`
the code raises when `Header` lacks `SheetType` or `SheetVersion` (the
unguarded subscripts at the end of the phase). -/
def structuralMsgs (p : Profile) (d : Document) : Except String (List Msg) :=
  let m1 := (getExpectedColumns p d.samples).filterMap fun col =>
    if col ∈ allSampleKeys d.samples then none
    else some (Msg.err ("The " ++ col ++ " column in the Data section is missing"))
  let m2 := (if d.bioinformatics = none then
      [Msg.err "The Bioinformatics section cannot be empty"] else []) ++
    (if d.contact = none then [Msg.err "The Contact section cannot be empty"] else [])
  let m3 := p.headerKeys.filterMap fun a =>
    if (d.header.lookup a).isSome then none
    else some (Msg.err ("'" ++ a ++ "' is not declared in Header section"))
  let m4 := match d.header.lookup "Assay" with
    | some v =>
        if v ≠ p.expectedAssay then
          [Msg.err ("'Assay' value is not '" ++ p.expectedAssay ++ "'")]
        else []
    | none => []
  match d.header.lookup "SheetType" with
  | none => .error "KeyError: 'SheetType'"
  | some stv =>
    let m5 := if stv ≠ p.expectedSheetType then
        [Msg.err ("'SheetType' value is not '" ++ p.expectedSheetType ++ "'")]
      else []
    match d.header.lookup "SheetVersion" with
    | none => .error "KeyError: 'SheetVersion'"
    | some svv =>
      let filtered : String := ⟨svv.toList.filter fun c => !(c ∈ quoteChars)⟩
      let m67 := match pyInt? filtered with
        | some sv =>
            if sv ≠ p.expectedSheetVersion then
              [Msg.err ("'SheetVersion' value is not '" ++
                intStr p.expectedSheetVersion ++ "'")]
            else []
        | none =>
            -- int() raised: the message is appended and the filtered list is
            -- then compared (list vs int, always unequal), appending the
            -- second message too
            [Msg.err ("'" ++ svv ++ "' doesnot look like a valid value"),
             Msg.err ("'SheetVersion' value is not '" ++
               intStr p.expectedSheetVersion ++ "'")]
      .ok (m1 ++ m2 ++ m3 ++ m4 ++ m5 ++ m67)

/-- One scrubbing step over the sample list, accumulating the rewritten
samples, the scrubbed sample names, and the project rename map (a dict in
insertion order). -/
def scrubFold (scrub : String → String) (samples : List (List (String × String))) :
    List (List (String × String)) × List String × List (String × String) :=
  samples.foldl
    (fun acc s =>
      let oldID := sget s "Sample_ID"
      let oldPr := sget s "Sample_Project"
      let newID := scrub oldID
      let newPr := scrub oldPr
      let s1 := if newID ≠ oldID then dictSet s "Sample_ID" newID else s
      let s2 := if newPr ≠ oldPr then dictSet s1 "Sample_Project" newPr else s1
      (acc.1 ++ [s2],
       acc.2.1 ++ (if newID ≠ oldID then [oldID] else []),
       if newPr ≠ oldPr then dictSet acc.2.2 oldPr newPr else acc.2.2))
    ([], [], [])

/-- `Series.replace(dict)` on the `Sample_Project` column of a table;
`none` models the `AttributeError` when the column is missing. -/
def replaceProjCol (t : Table) (repl : List (String × String)) : Option Table :=
  match t.columns.indexOf? "Sample_Project" with
  | none => none
  | some i =>
      let f := fun (r : List Cell) =>
        r.set i (match r.getD i (Cell.s "") with
                 | .s v => .s ((repl.lookup v).getD v)
                 | c => c)
      some { t with rows := t.rows.map f }

/-- Phase 2 (scrubbing).  Warnings for scrubbed sample and project names;
project renames are propagated to the Contact then Bioinformatics
`Sample_Project` columns (raising if a section or column is absent). -/
def scrubPhase (scrub : String → String) (d : Document) :
    Except String (List Msg × Document) :=
  let r := scrubFold scrub d.samples
  let newSamples := r.1
  let updS := r.2.1
  let updP := r.2.2
  let msgs := (if updS ≠ [] then
      [Msg.warn ("The following sample names were scrubbed for bcl2fastq " ++
        "compatibility:\n" ++ joinComma updS)] else []) ++
    (if updP ≠ [] then
      [Msg.warn ("The following project names were scrubbed for bcl2fastq " ++
        "compatibility. If the same invalid characters are also found in the " ++
        "Bioinformatics and Contacts sections those will be automatically " ++
        "scrubbed too:\n" ++ joinComma (sortStrings (updP.map Prod.fst)))] else [])
  if updP = [] then .ok (msgs, { d with samples := newSamples })
  else
    match d.contact with
    | none => .error "AttributeError: 'NoneType' object has no attribute 'Sample_Project'"
    | some ct =>
      match replaceProjCol ct updP with
      | none => .error "AttributeError: 'DataFrame' object has no attribute 'Sample_Project'"
      | some ct' =>
        match d.bioinformatics with
        | none => .error "AttributeError: 'NoneType' object has no attribute 'Sample_Project'"
        | some bt =>
          match replaceProjCol bt updP with
          | none => .error "AttributeError: 'DataFrame' object has no attribute 'Sample_Project'"
          | some bt' =>
            let d2 := { d with samples := newSamples, contact := some ct' }
            .ok (msgs, { d2 with bioinformatics := some bt' })

/-- `str(lane)` where a missing `Lane` attribute is Python `None`. -/
def laneStr (s : List (String × String)) : String :=
  match s.lookup "Lane" with
  | some v => v
  | none => "None"

/-- The `(.+)_(\d+)$` search of the Qiita-identifier check: some underscore
with a non-empty prefix before it and only digits (at least one) after. -/
def matchesQiita (s : String) : Bool :=
  let cs := s.toList
  (List.range cs.length).any fun i =>
    decide (0 < i) && (cs.getD i ' ' = '_') && decide (i + 1 < cs.length) &&
      (cs.drop (i + 1)).all isDig

/-- The named column of a table as a cell list (`none` = `KeyError`). -/
def colCells (t : Table) (c : String) : Option (List Cell) :=
  (t.columns.indexOf? c).map fun i => t.rows.map fun r => r.getD i (Cell.s "")

/-- Phase 3 (cross-section checks): missing Lane values, Qiita
identifiers, Data↔Bioinformatics symmetric difference, and — only when the
difference is empty — the Contact-subset check, which appends an
`ErrorMessage`. -/
def crossSectionMsgs (d : Document) : Except String (List Msg) :=
  let pairs := dedupFirst (d.samples.map fun s => (laneStr s, sget s "Sample_Project"))
  let emptyProjects := (pairs.filter fun pr => pyStrip pr.1 = "").map Prod.snd
  let m1 := if emptyProjects ≠ [] then
      [Msg.err ("The following projects are missing a Lane value: " ++
        joinComma (sortStrings emptyProjects))]
    else []
  let projects := dedupFirst (d.samples.map fun s => sget s "Sample_Project")
  let badProjects := projects.filter fun p => !matchesQiita p
  let m2 := if badProjects ≠ [] then
      [Msg.err ("The following project names in the Sample_Project column are " ++
        "missing a Qiita study identifier: " ++ joinComma (sortStrings badProjects))]
    else []
  match d.bioinformatics with
  | none => .error "TypeError: 'NoneType' object is not subscriptable"
  | some bt =>
    match colCells bt "Sample_Project" with
    | none => .error "KeyError: 'Sample_Project'"
    | some bcol =>
      match d.contact with
      | none => .error "TypeError: 'NoneType' object is not subscriptable"
      | some ct =>
        match colCells ct "Sample_Project" with
        | none => .error "KeyError: 'Sample_Project'"
        | some ccol =>
          let projCells := projects.map Cell.s
          let bfx := dedupFirst bcol
          let contactP := dedupFirst ccol
          let notShared := (projCells.filter fun c => c ∉ bfx) ++
            (bfx.filter fun c => c ∉ projCells)
          let m34 := if notShared ≠ [] then
              [Msg.err ("The following projects need to be in the Data and " ++
                "Bioinformatics sections " ++
                joinComma (sortStrings (notShared.map Cell.toStr)))]
            else if !(contactP.all fun c => c ∈ projCells) then
              [Msg.err ("The following projects were only found in the Contact " ++
                "section: " ++
                joinComma (sortStrings ((contactP.filter fun c =>
                  c ∉ projCells).map Cell.toStr)) ++
                " projects need to be listed in the Data and Bioinformatics " ++
                "section in order to be included in the Contact section.")]
            else []
          .ok (m1 ++ m2 ++ m34)

/-- `func` from `_normalize_bi_booleans`, with its optional message. -/
def normCell (x : Cell) : Cell × Option String :=
  match x with
  | .b v => (.b v, none)
  | .s v =>
    if pyLower (pyStrip v) = "true" then (.b true, none)
    else if pyLower (pyStrip v) = "false" then (.b false, none)
    else (.s v, some ("'" ++ v ++ "' is not 'True' or 'False'"))

/-- `Series.apply(func)` over one column. -/
def normalizeColumn (cells : List Cell) : List Cell × List String :=
  (cells.map fun c => (normCell c).1, cells.filterMap fun c => (normCell c).2)

/-- `_normalize_bi_booleans` over the whole table: every declared boolean
column that is present is normalized; messages accumulate.  (The source
iterates a `frozenset`; the column order here is fixed.) -/
def normalizeBioBooleans (bools : List String) (t : Table) : Table × List String :=
  bools.foldl
    (fun acc col =>
      match acc.1.columns.indexOf? col with
      | none => acc
      | some i =>
        let cells := acc.1.rows.map fun r => r.getD i (Cell.s "")
        let res := normalizeColumn cells
        ({ acc.1 with rows := (acc.1.rows.zip res.1).map fun rc => rc.1.set i rc.2 },
         acc.2 ++ res.2))
    (t, [])

/-- Phase 4: boolean normalization of the Bioinformatics table (skipped
when the section is absent). -/
def normPhase (p : Profile) (d : Document) : List Msg × Document :=
  match d.bioinformatics with
  | none => ([], d)
  | some bt =>
    let res := normalizeBioBooleans p.bioBooleans bt
    (res.2.map Msg.plain, { d with bioinformatics := some res.1 })

/-- `quiet_validate_and_scrub_sample_sheet`: phase 1, short-circuiting on
any structural diagnostic, then scrubbing, cross-section checks and boolean
normalization, returning all collected diagnostics and the (possibly
mutated) document. -/
def quietValidate (p : Profile) (scrub : String → String) (d : Document) :
    Except String (List Msg × Document) :=
  match structuralMsgs p d with
  | .error e => .error e
  | .ok m1 =>
    if m1 ≠ [] then .ok (m1, d)
    else
      match scrubPhase scrub d with
      | .error e => .error e
      | .ok (m2, d2) =>
        match crossSectionMsgs d2 with
        | .error e => .error e
        | .ok m3 =>
          let r4 := normPhase p d2
          .ok (m2 ++ m3 ++ r4.1, r4.2)

/-- `validate_and_scrub_sample_sheet` (default `echo_msgs=True`): echo every
message — which raises `AttributeError` on the bare strings produced by
boolean normalization — then return `True` iff no `ErrorMessage` was
collected. -/
def validateVerbose (p : Profile) (scrub : String → String) (d : Document) :
    Except String (Bool × Document) :=
  match quietValidate p scrub d with
  | .error e => .error e
  | .ok (msgs, d') =>
    if msgs.all Msg.canEcho then .ok (!(msgs.any Msg.isError), d')
    else .error "AttributeError: 'str' object has no attribute 'echo'"

theorem mem_dedupAux_iff [DecidableEq α] {seen l : List α} {x : α} :
    x ∈ dedupAux seen l ↔ x ∈ l ∧ x ∉ seen := by
  induction l generalizing seen with
  | nil => simp [dedupAux]
  | cons y ys ih =>
    unfold dedupAux
    by_cases hy : y ∈ seen
    · rw [if_pos hy, ih]
      constructor
      · rintro ⟨h1, h2⟩
        exact ⟨List.mem_cons_of_mem _ h1, h2⟩
      · rintro ⟨h1, h2⟩
        rcases List.mem_cons.mp h1 with rfl | h1
        · exact absurd hy h2
        · exact ⟨h1, h2⟩
    · rw [if_neg hy]
      constructor
      · intro h
        rcases List.mem_cons.mp h with rfl | h
        · exact ⟨List.mem_cons_self _ _, hy⟩
        · obtain ⟨h1, h2⟩ := ih.mp h
          refine ⟨List.mem_cons_of_mem _ h1, fun hs => h2 (List.mem_cons_of_mem _ hs)⟩
      · rintro ⟨h1, h2⟩
        rcases List.mem_cons.mp h1 with rfl | h1
        · exact List.mem_cons_self _ _
        · by_cases hxy : x = y
          · subst hxy
            exact List.mem_cons_self _ _
          · refine List.mem_cons_of_mem _ (ih.mpr ⟨h1, ?_⟩)
            intro hs
            rcases List.mem_cons.mp hs with h | h
            · exact hxy h
            · exact h2 h

theorem mem_dedupFirst_iff [DecidableEq α] {l : List α} {x : α} :
    x ∈ dedupFirst l ↔ x ∈ l := by
  unfold dedupFirst
  rw [mem_dedupAux_iff]
  simp

/-- A document with a katharoseq control sample whose name is capitalized. -/
def c2Samples : List (List (String × String)) :=
  [[("Sample_Name", "Katharo_plate1_A1")]]

/-- C2: the two code paths of the conditional-schema predicate disagree on
a capitalized katharoseq sample name.  `contains_katharoseq_samples`
lowercases the name before testing the `'katharo'` prefix, so the
existing-samples path of `_get_expected_columns` adds the optional columns;
`_table_contains_katharoseq_samples` tests `str.startswith('katharo')`
without lowercasing (despite its comment demanding consistency with the
other method), so the candidate-table path does not. -/
theorem C2_katharoseq_predicate_disagreement :
    containsKatharoseqSamples c2Samples = true ∧
    tableContainsKatharoseqSamples ["Katharo_plate1_A1"] = false ∧
    getExpectedColumns metagenomicV101Profile c2Samples =
      metagenomicV101Profile.dataColumns ++
        metagenomicV101Profile.optionalKatharoseqColumns ∧
    getExpectedColumnsTable metagenomicV101Profile ["Katharo_plate1_A1"] =
      metagenomicV101Profile.dataColumns := by
  refine ⟨by decide, by decide, by decide, by decide⟩

/-- A fully populated v100 header. -/
def fullHeaderV100 : List (String × String) :=
  [("IEMFileVersion", "4"), ("SheetType", "standard_metag"),
   ("SheetVersion", "100"), ("Investigator Name", "Knight"),
   ("Experiment Name", "RKL_experiment"), ("Date", "2023-01-01"),
   ("Workflow", "GenerateFASTQ"), ("Application", "FASTQ Only"),
   ("Assay", "Metagenomic"), ("Description", ""), ("Chemistry", "Default")]

/-- A v100 Data row with every expected column plus `Lane`. -/
def mkV100Sample (id name pr lane : String) : List (String × String) :=
  [("Sample_ID", id), ("Sample_Name", name), ("Sample_Plate", "p1"),
   ("well_id_384", "A1"), ("I7_Index_ID", "i7"), ("index", "AAC"),
   ("I5_Index_ID", "i5"), ("index2", "GGT"), ("Sample_Project", pr),
   ("Well_description", "d"), ("Lane", lane)]

/-- A structurally valid document whose Data and Bioinformatics projects
match exactly but whose Contact section lists an extra project. -/
def c3Doc : Document :=
  { header := fullHeaderV100, reads := [151],
    settings := [("ReverseComplement", "0")],
    samples := [mkV100Sample "s1" "n1" "Project_1" "1"],
    bioinformatics := some { columns := ["Sample_Project", "HumanFiltering"],
                             rows := [[Cell.s "Project_1", Cell.b true]] },
    contact := some { columns := ["Sample_Project", "Email"],
                      rows := [[Cell.s "Project_1", Cell.s "x@y.z"],
                               [Cell.s "Extra_2", Cell.s "e@e.e"]] },
    others := [] }

/-- C3 counterexample: on a document whose Data and Bioinformatics project
sets agree but whose Contact section lists the extra project `Extra_2`, the
validator reports the Contact-only project as an `ErrorMessage`, not a
Warning, and the verbose validator therefore returns `False`, not
success. -/
theorem C3_counterexample :
    quietValidate metagenomicV100Profile id c3Doc =
      .ok ([Msg.err ("The following projects were only found in the Contact " ++
        "section: Extra_2 projects need to be listed in the Data and " ++
        "Bioinformatics section in order to be included in the Contact " ++
        "section.")], c3Doc) ∧
    validateVerbose metagenomicV100Profile id c3Doc = .ok (false, c3Doc) := by
  constructor
  · rfl
  · rfl

/-- C3 (amended): for every profile and Document that passes the
structural phase with no diagnostics, is left unchanged by scrubbing, has
no missing-Lane or Qiita-identifier problems, whose Data-section project
set equals its Bioinformatics project set (empty symmetric difference),
whose Contact table contains a project absent from the Data section, and
whose boolean normalization produces no messages, the validator returns
exactly one diagnostic, it is Error-class (an `ErrorMessage`, not the
Warning the claim asserts), and the verbose validator returns `False`
(failure, not success). -/
theorem C3_contact_only_is_error (p : Profile) (scrub : String → String)
    (d : Document) (bt ct : Table) (bcol ccol : List Cell)
    (h1 : structuralMsgs p d = .ok [])
    (h2 : scrubPhase scrub d = .ok ([], d))
    (hb : d.bioinformatics = some bt) (hc : d.contact = some ct)
    (hbcol : colCells bt "Sample_Project" = some bcol)
    (hccol : colCells ct "Sample_Project" = some ccol)
    (hlane : ∀ s ∈ d.samples, ¬ pyStrip (laneStr s) = "")
    (hqiita : ∀ s ∈ d.samples, matchesQiita (sget s "Sample_Project") = true)
    (hsym1 : ∀ s ∈ d.samples, Cell.s (sget s "Sample_Project") ∈ bcol)
    (hsym2 : ∀ c ∈ bcol, c ∈ d.samples.map fun s => Cell.s (sget s "Sample_Project"))
    (hsub : ∃ c ∈ ccol, c ∉ d.samples.map fun s => Cell.s (sget s "Sample_Project"))
    (hnorm : (normPhase p d).1 = []) :
    (quietValidate p scrub d).map
        (fun pr => (pr.1.length, pr.1.all Msg.isError, pr.2)) =
      .ok (1, true, (normPhase p d).2) ∧
    validateVerbose p scrub d = .ok (false, (normPhase p d).2) := by
  have hcross : ∃ m, crossSectionMsgs d = .ok [Msg.err m] := by
    dsimp only [crossSectionMsgs]
    have he : ((dedupFirst (d.samples.map fun s =>
        (laneStr s, sget s "Sample_Project"))).filter fun pr =>
          pyStrip pr.1 = "") = [] := by
      rw [List.filter_eq_nil_iff]
      intro pr hpr
      rw [mem_dedupFirst_iff] at hpr
      obtain ⟨s, hs, rfl⟩ := List.mem_map.mp hpr
      simpa using hlane s hs
    have hbad : ((dedupFirst (d.samples.map fun s =>
        sget s "Sample_Project")).filter fun pr => !matchesQiita pr) = [] := by
      rw [List.filter_eq_nil_iff]
      intro pr hpr
      rw [mem_dedupFirst_iff] at hpr
      obtain ⟨s, hs, rfl⟩ := List.mem_map.mp hpr
      simp [hqiita s hs]
    rw [he, hbad, hb]
    dsimp only []
    rw [hbcol]
    dsimp only []
    rw [hc]
    dsimp only []
    rw [hccol]
    dsimp only []
    have hns1 : (((dedupFirst (d.samples.map fun s =>
        sget s "Sample_Project")).map Cell.s).filter fun c =>
          decide (c ∉ dedupFirst bcol)) = [] := by
      rw [List.filter_eq_nil_iff]
      intro c hcm
      obtain ⟨pr, hpr, rfl⟩ := List.mem_map.mp hcm
      rw [mem_dedupFirst_iff] at hpr
      obtain ⟨s, hs, rfl⟩ := List.mem_map.mp hpr
      simp only [decide_eq_true_eq, not_not]
      exact mem_dedupFirst_iff.mpr (hsym1 s hs)
    have hns2 : ((dedupFirst bcol).filter fun c =>
        decide (c ∉ (dedupFirst (d.samples.map fun s =>
          sget s "Sample_Project")).map Cell.s)) = [] := by
      rw [List.filter_eq_nil_iff]
      intro c hcm
      rw [mem_dedupFirst_iff] at hcm
      have hmm := hsym2 c hcm
      obtain ⟨s, hs, rfl⟩ := List.mem_map.mp hmm
      simp only [decide_eq_true_eq, not_not]
      exact List.mem_map_of_mem Cell.s
        (mem_dedupFirst_iff.mpr (List.mem_map_of_mem _ hs))
    have hallf : ((dedupFirst ccol).all fun c =>
        decide (c ∈ (dedupFirst (d.samples.map fun s =>
          sget s "Sample_Project")).map Cell.s)) = false := by
      obtain ⟨c, hcm, hcn⟩ := hsub
      rw [← Bool.not_eq_true, List.all_eq_true]
      intro hall
      have := hall c (mem_dedupFirst_iff.mpr hcm)
      rw [decide_eq_true_eq] at this
      obtain ⟨pr, hpr, heq⟩ := List.mem_map.mp this
      rw [mem_dedupFirst_iff] at hpr
      obtain ⟨s, hs, rfl⟩ := List.mem_map.mp hpr
      exact hcn (heq ▸ List.mem_map_of_mem (fun s => Cell.s (sget s "Sample_Project")) hs)
    exact ⟨_, by rw [hns1, hns2, hallf]; rfl⟩
  obtain ⟨m, hm⟩ := hcross
  have hq : quietValidate p scrub d = .ok ([Msg.err m], (normPhase p d).2) := by
    unfold quietValidate
    rw [h1]
    dsimp only []
    rw [if_neg (by simp)]
    rw [h2]
    dsimp only []
    rw [hm]
    dsimp only []
    rw [hnorm]
    rfl
  constructor
  · rw [hq]
    rfl
  · unfold validateVerbose
    rw [hq]
    rfl

/-- Witness for `C3_contact_only_is_error` at the concrete document
`c3Doc`. -/
theorem C3_contact_only_is_error_witness :
    (quietValidate metagenomicV100Profile id c3Doc).map
        (fun pr => (pr.1.length, pr.1.all Msg.isError, pr.2)) =
      .ok (1, true, (normPhase metagenomicV100Profile c3Doc).2) ∧
    validateVerbose metagenomicV100Profile id c3Doc =
      .ok (false, (normPhase metagenomicV100Profile c3Doc).2) :=
  C3_contact_only_is_error metagenomicV100Profile id c3Doc
    ⟨["Sample_Project", "HumanFiltering"], [[Cell.s "Project_1", Cell.b true]]⟩
    ⟨["Sample_Project", "Email"], [[Cell.s "Project_1", Cell.s "x@y.z"],
      [Cell.s "Extra_2", Cell.s "e@e.e"]]⟩
    [Cell.s "Project_1"] [Cell.s "Project_1", Cell.s "Extra_2"]
    rfl rfl rfl rfl rfl rfl
    (by decide) (by decide) (by decide) (by decide)
    ⟨Cell.s "Extra_2", by decide, by decide⟩ rfl

/-- A document whose `[Header]` section is empty: every required header
key, `SheetType` included, is missing. -/
def c4Doc : Document :=
  { header := [], reads := [], settings := [],
    samples := [mkV100Sample "s1" "n1" "Project_1" "1"],
    bioinformatics := none, contact := none, others := [] }

/-- **C4** (code bug).  The claim says `quiet_validate_and_scrub_sample_sheet`
always returns a diagnostic list rather than raising.  But although the
structural phase reports each missing header key as an `ErrorMessage`, the
code then reads `self.Header['SheetType']` unguarded (line 639), so on a
document with an empty Header the silent validator raises `KeyError:
'SheetType'` instead of returning the diagnostics it just collected. -/
theorem C4_structural_phase_raises_keyerror :
    c4Doc.header.lookup "SheetType" = none ∧
    quietValidate metagenomicV100Profile id c4Doc =
      .error "KeyError: 'SheetType'" :=
  ⟨rfl, rfl⟩

/-- **C7**.  `_normalize_bi_booleans` maps each cell of a declared boolean
column independently: a boolean is returned unchanged with no message; a
string equal to true/false case-insensitively after stripping whitespace
becomes the corresponding boolean with no message; any other value is
returned unchanged and contributes exactly the message naming its literal;
and on the column TRUE, false, True, yes the result is True, False, True,
yes with exactly one diagnostic, about yes. -/
theorem C7_boolean_normalization :
    (∀ v, normCell (Cell.b v) = (Cell.b v, none)) ∧
    (∀ s, pyLower (pyStrip s) = "true" →
      normCell (Cell.s s) = (Cell.b true, none)) ∧
    (∀ s, pyLower (pyStrip s) = "false" →
      normCell (Cell.s s) = (Cell.b false, none)) ∧
    (∀ s, pyLower (pyStrip s) ≠ "true" → pyLower (pyStrip s) ≠ "false" →
      normCell (Cell.s s) =
        (Cell.s s, some ("'" ++ s ++ "' is not 'True' or 'False'"))) ∧
    normalizeBioBooleans ["HumanFiltering"]
        ⟨["HumanFiltering"],
         [[Cell.s "TRUE"], [Cell.s "false"], [Cell.b true], [Cell.s "yes"]]⟩ =
      (⟨["HumanFiltering"],
        [[Cell.b true], [Cell.b false], [Cell.b true], [Cell.s "yes"]]⟩,
       ["'yes' is not 'True' or 'False'"]) := by
  refine ⟨fun v => rfl, fun s h => ?_, fun s h => ?_, fun s h1 h2 => ?_, rfl⟩
  · simp [normCell, h]
  · simp [normCell, h]
  · simp [normCell, h1, h2]

/-- Witness for `C7_boolean_normalization`: the three string cases at
concrete inputs. -/
theorem C7_boolean_normalization_witness :
    normCell (Cell.s " tRuE ") = (Cell.b true, none) ∧
    normCell (Cell.s "False") = (Cell.b false, none) ∧
    normCell (Cell.s "yes") =
      (Cell.s "yes", some "'yes' is not 'True' or 'False'") :=
  ⟨C7_boolean_normalization.2.1 " tRuE " (by decide),
   C7_boolean_normalization.2.2.1 "False" (by decide),
   C7_boolean_normalization.2.2.2.1 "yes" (by decide) (by decide)⟩

/-- A structurally valid document whose Bioinformatics boolean column
`HumanFiltering` holds the non-normalizable string `yes`. -/
def c8Doc : Document :=
  { header := fullHeaderV100, reads := [151],
    settings := [("ReverseComplement", "0")],
    samples := [mkV100Sample "s1" "n1" "Project_1" "1"],
    bioinformatics := some { columns := ["Sample_Project", "HumanFiltering"],
                             rows := [[Cell.s "Project_1", Cell.s "yes"]] },
    contact := some { columns := ["Sample_Project", "Email"],
                      rows := [[Cell.s "Project_1", Cell.s "x@y.z"]] },
    others := [] }

/-- **C8** (code bug).  The claim says the verbose entry point
`validate_and_scrub_sample_sheet` is pure presentation over the silent one.
But `_normalize_bi_booleans` appends bare strings to `msgs`, and the
verbose path calls `msg.echo()` on every message: on a document whose only
diagnostic is such a bare string, the silent form returns the diagnostic
list (which contains no Error) while the verbose form raises
`AttributeError` — printing does change the outcome. -/
theorem C8_verbose_crashes_on_normalization_message :
    quietValidate metagenomicV100Profile id c8Doc =
      .ok ([Msg.plain "'yes' is not 'True' or 'False'"], c8Doc) ∧
    Msg.isError (Msg.plain "'yes' is not 'True' or 'False'") = false ∧
    validateVerbose metagenomicV100Profile id c8Doc =
      .error "AttributeError: 'str' object has no attribute 'echo'" :=
  ⟨rfl, rfl, rfl⟩

/-- `KLSampleSheet.get_lane_number`: collect each sample's `Lane`, dedupe
(`list(set(lanes))`), raise on more than one distinct value, index the
single element (IndexError when there are no samples), convert with
`int`. -/
def getLaneNumber (d : Document) : Except String Int :=
  let lanes := dedupFirst (d.samples.map fun s => s.lookup "Lane")
  if 1 < lanes.length then
    .error "ValueError: This sample-sheet contains more than one lane"
  else
    match lanes with
    | [] => .error "IndexError: list index out of range"
    | none :: _ => .error "TypeError: int() argument must be a string"
    | some l :: _ =>
      match pyInt? l with
      | some n => .ok n
      | none => .error ("ValueError: invalid literal for int(): '" ++ l ++ "'")

/-- **C10**.  `get_lane_number` returns the single distinct Lane value as
an integer when there is exactly one and it parses; raises ValueError
naming more than one lane as soon as two distinct values exist; and on a
document without samples raises (IndexError) rather than returning a
default. -/
theorem C10_get_lane_number (d : Document) :
    (∀ l n, dedupFirst (d.samples.map fun s => s.lookup "Lane") = [some l] →
      pyInt? l = some n → getLaneNumber d = .ok n) ∧
    (1 < (dedupFirst (d.samples.map fun s => s.lookup "Lane")).length →
      getLaneNumber d =
        .error "ValueError: This sample-sheet contains more than one lane") ∧
    (d.samples = [] →
      getLaneNumber d = .error "IndexError: list index out of range") := by
  refine ⟨?_, ?_, ?_⟩
  · intro l n hd hn
    unfold getLaneNumber
    dsimp only []
    rw [hd]
    rw [if_neg (by simp)]
    dsimp only []
    rw [hn]
  · intro h
    unfold getLaneNumber
    dsimp only []
    rw [if_pos h]
  · intro h
    simp [getLaneNumber, h, dedupFirst, dedupAux]

/-- A two-sample document sharing the single lane `3`. -/
def c10Doc : Document :=
  { header := [], reads := [], settings := [],
    samples := [[("Sample_ID", "s1"), ("Lane", "3")],
                [("Sample_ID", "s2"), ("Lane", "3")]],
    bioinformatics := none, contact := none, others := [] }

/-- Witness for `C10_get_lane_number`: both samples carry lane 3, and the
accessor returns the integer 3. -/
theorem C10_get_lane_number_witness : getLaneNumber c10Doc = .ok 3 :=
  (C10_get_lane_number c10Doc).1 "3" 3 (by decide) (by decide)

/-- Python `dict` equality for the assoc-list model of Header/Settings:
every key of either side looks up to the same value on both. -/
def dictEq (a b : List (String × String)) : Bool :=
  (a.map Prod.fst ++ b.map Prod.fst).all fun k => a.lookup k = b.lookup k

/-- `{k: v for k, v in this.items() if k != 'Date'}`. -/
def sansDate (a : List (String × String)) : List (String × String) :=
  a.filter fun kv => kv.1 ≠ "Date"

/-- The per-sheet section comparison of `KLSampleSheet.merge`: Header
(ignoring `Date`), then Settings, then Reads, raising `ValueError` with the
section name and the 1-based sheet index. -/
def mergeCheck (acc sheet : Document) (number : Nat) : Except String Unit :=
  if dictEq (sansDate acc.header) (sansDate sheet.header) = false then
    .error ("The Header section is different for sample sheet " ++
      natStr (number + 1) ++ " ")
  else if dictEq acc.settings sheet.settings = false then
    .error ("The Settings section is different for sample sheet " ++
      natStr (number + 1) ++ " ")
  else if acc.reads ≠ sheet.reads then
    .error ("The Reads section is different for sample sheet " ++
      natStr (number + 1) ++ " ")
  else .ok ()

/-- Concatenating the Bioinformatics/Contact frames: rows appended when
both are present, then `drop_duplicates(keep='first')`; a lone frame is
taken as-is. -/
def mergeTables : Option Table → Option Table → Option Table
  | some t1, some t2 => some { t1 with rows := dedupFirst (t1.rows ++ t2.rows) }
  | none, some t2 => some t2
  | t1, _ => t1

/-- The loop body of `merge` over `enumerate(sheets)`. -/
def mergeFrom : Nat → Document → List Document → Except String Document
  | _, acc, [] => .ok acc
  | number, acc, sheet :: rest =>
    match mergeCheck acc sheet number with
    | .error e => .error e
    | .ok _ =>
      mergeFrom (number + 1) { acc with samples := acc.samples ++ sheet.samples, bioinformatics := mergeTables acc.bioinformatics sheet.bioinformatics, contact := mergeTables acc.contact sheet.contact } rest

/-- `KLSampleSheet.merge`. -/
def merge (d : Document) (sheets : List Document) : Except String Document :=
  mergeFrom 0 d sheets

/-- All three compared sections agree (Header up to `Date`). -/
def sectionsMatch (a b : Document) : Bool :=
  dictEq (sansDate a.header) (sansDate b.header) &&
  dictEq a.settings b.settings && decide (a.reads = b.reads)

theorem mergeCheck_ok {a s : Document} (h : sectionsMatch a s = true) (k : Nat) :
    mergeCheck a s k = .ok () := by
  simp only [sectionsMatch, Bool.and_eq_true, decide_eq_true_eq] at h
  obtain ⟨⟨h1, h2⟩, h3⟩ := h
  simp [mergeCheck, h1, h2, h3]

theorem mergeFrom_err (pre : List Document) : ∀ (n : Nat) (acc sheet : Document)
    (post : List Document) (e : String),
    (∀ s ∈ pre, sectionsMatch acc s = true) →
    mergeCheck acc sheet (n + pre.length) = .error e →
    mergeFrom n acc (pre ++ sheet :: post) = .error e := by
  induction pre with
  | nil =>
    intro n acc sheet post e _ hc
    rw [List.nil_append]
    unfold mergeFrom
    rw [show n + List.length [] = n from rfl] at hc
    rw [hc]
  | cons h t ih =>
    intro n acc sheet post e hpre hc
    rw [List.cons_append]
    unfold mergeFrom
    rw [mergeCheck_ok (hpre h (List.mem_cons_self h t)) n]
    dsimp only []
    refine ih (n + 1) _ sheet post e (fun s hs => hpre s (List.mem_cons_of_mem h hs)) ?_
    rw [show n + 1 + t.length = n + (h :: t).length from by simp; omega]
    exact hc

theorem mergeFrom_ok (sheets : List Document) : ∀ (n : Nat) (acc : Document),
    (∀ s ∈ sheets, sectionsMatch acc s = true) →
    mergeFrom n acc sheets = .ok { acc with samples := acc.samples ++ (sheets.map Document.samples).flatten, bioinformatics := sheets.foldl (fun b s => mergeTables b s.bioinformatics) acc.bioinformatics, contact := sheets.foldl (fun c s => mergeTables c s.contact) acc.contact } := by
  induction sheets with
  | nil =>
    intro n acc _
    unfold mergeFrom
    cases acc
    simp
  | cons h t ih =>
    intro n acc hall
    unfold mergeFrom
    rw [mergeCheck_ok (hall h (List.mem_cons_self h t)) n]
    dsimp only []
    have ih2 := ih (n + 1)
      { acc with samples := acc.samples ++ h.samples, bioinformatics := mergeTables acc.bioinformatics h.bioinformatics, contact := mergeTables acc.contact h.contact }
      (fun s hs => hall s (List.mem_cons_of_mem h hs))
    rw [ih2]
    cases acc
    simp [List.append_assoc]

/-- **C6**.  `merge` raises `ValueError` naming the mismatched section
(Header compared without `Date`, then Settings, then Reads) and the 1-based
index of the first input whose section differs from the base; when every
input matches, it returns the base with each input's samples appended in
order, the base's Header (hence its `Date`) kept, and
Bioinformatics/Contact frames concatenated with exact-duplicate rows
dropped keeping the first occurrence. -/
theorem C6_merge_first_mismatch_or_append (d : Document) :
    (∀ pre sheet post, (∀ s ∈ pre, sectionsMatch d s = true) →
      dictEq (sansDate d.header) (sansDate sheet.header) = false →
      merge d (pre ++ sheet :: post) =
        .error ("The Header section is different for sample sheet " ++
          natStr (pre.length + 1) ++ " ")) ∧
    (∀ pre sheet post, (∀ s ∈ pre, sectionsMatch d s = true) →
      dictEq (sansDate d.header) (sansDate sheet.header) = true →
      dictEq d.settings sheet.settings = false →
      merge d (pre ++ sheet :: post) =
        .error ("The Settings section is different for sample sheet " ++
          natStr (pre.length + 1) ++ " ")) ∧
    (∀ pre sheet post, (∀ s ∈ pre, sectionsMatch d s = true) →
      dictEq (sansDate d.header) (sansDate sheet.header) = true →
      dictEq d.settings sheet.settings = true →
      ¬ d.reads = sheet.reads →
      merge d (pre ++ sheet :: post) =
        .error ("The Reads section is different for sample sheet " ++
          natStr (pre.length + 1) ++ " ")) ∧
    (∀ sheets, (∀ s ∈ sheets, sectionsMatch d s = true) →
      merge d sheets = .ok { d with samples := d.samples ++ (sheets.map Document.samples).flatten, bioinformatics := sheets.foldl (fun b s => mergeTables b s.bioinformatics) d.bioinformatics, contact := sheets.foldl (fun c s => mergeTables c s.contact) d.contact }) := by
  refine ⟨?_, ?_, ?_, ?_⟩
  · intro pre sheet post hpre hH
    refine mergeFrom_err pre 0 d sheet post _ hpre ?_
    rw [Nat.zero_add]
    simp [mergeCheck, hH]
  · intro pre sheet post hpre hH hS
    refine mergeFrom_err pre 0 d sheet post _ hpre ?_
    rw [Nat.zero_add]
    simp [mergeCheck, hH, hS]
  · intro pre sheet post hpre hH hS hR
    refine mergeFrom_err pre 0 d sheet post _ hpre ?_
    rw [Nat.zero_add]
    simp [mergeCheck, hH, hS, hR]
  · intro sheets hall
    exact mergeFrom_ok sheets 0 d hall

/-- Base document for the `merge` witness. -/
def c6Base : Document :=
  { header := [("Date", "2023-01-01"), ("Assay", "Metagenomic")],
    reads := [151], settings := [("ReverseComplement", "0")],
    samples := [[("Sample_ID", "s1"), ("Lane", "1")]],
    bioinformatics := some { columns := ["Sample_Project"],
                             rows := [[Cell.s "P1"]] },
    contact := none, others := [] }

/-- An input sheet differing from `c6Base` only in `Date`, with one extra
sample, a duplicate Bioinformatics row and a Contact frame of its own. -/
def c6Sheet : Document :=
  { header := [("Date", "2024-02-02"), ("Assay", "Metagenomic")],
    reads := [151], settings := [("ReverseComplement", "0")],
    samples := [[("Sample_ID", "s2"), ("Lane", "1")]],
    bioinformatics := some { columns := ["Sample_Project"],
                             rows := [[Cell.s "P1"]] },
    contact := some { columns := ["Sample_Project", "Email"],
                      rows := [[Cell.s "P1", Cell.s "x@y.z"]] },
    others := [] }

/-- A sheet whose Reads differ from `c6Base`. -/
def c6Bad : Document :=
  { header := [("Date", "2025-03-03"), ("Assay", "Metagenomic")],
    reads := [301], settings := [("ReverseComplement", "0")],
    samples := [], bioinformatics := none, contact := none, others := [] }

/-- Witness for `C6_merge_first_mismatch_or_append`: merging `c6Sheet`
succeeds, keeps the base Date, appends the sample and dedupes the
Bioinformatics rows; merging `c6Sheet` then `c6Bad` stops with the Reads
error at index 2. -/
theorem C6_merge_witness :
    merge c6Base [c6Sheet] =
      .ok { header := [("Date", "2023-01-01"), ("Assay", "Metagenomic")], reads := [151], settings := [("ReverseComplement", "0")], samples := [[("Sample_ID", "s1"), ("Lane", "1")], [("Sample_ID", "s2"), ("Lane", "1")]], bioinformatics := some { columns := ["Sample_Project"], rows := [[Cell.s "P1"]] }, contact := some { columns := ["Sample_Project", "Email"], rows := [[Cell.s "P1", Cell.s "x@y.z"]] }, others := [] } ∧
    merge c6Base [c6Sheet, c6Bad] =
      .error "The Reads section is different for sample sheet 2 " := by
  constructor
  · have h := (C6_merge_first_mismatch_or_append c6Base).2.2.2 [c6Sheet]
      (by decide)
    rw [h]
    rfl
  · have h := (C6_merge_first_mismatch_or_append c6Base).2.2.1 [c6Sheet] c6Bad []
      (by decide) (by decide) (by decide) (by decide)
    have hs : natStr ([c6Sheet].length + 1) = "2" := by
      show natStr 2 = "2"
      rw [natStr]
      norm_num
      rw [show (2 : Nat) = 1 + 1 from rfl, natDigitsLE]
      norm_num
      rw [natDigitsLE]
      rfl
    rw [hs] at h
    exact h

/-! ## Plate-replicate demultiplexer (`sample_sheet_to_dataframe`,
`sheet_needs_demuxing`, `_demux_sample_sheet`, `demux_sample_sheet`)

A dataframe row is an association list from (lowercased) column names to
string values; the `sample_id` index produced by `set_index` is modelled
by keeping the `sample_id` key inside each row.  The external
`PlateReplication.get_96_well_location_and_quadrant` collaborator is
abstracted as a `quadOf : String → Nat` parameter. -/

/-- The cell of one table row under a named column. -/
def rowCell (cols : List String) (r : List Cell) (c : String) : Cell :=
  match cols.indexOf? c with
  | some i => r.getD i (Cell.s "")
  | none => Cell.s ""

/-- `sample_sheet_to_dataframe`'s data block: each sample's values in
`all_sample_keys` order, keyed by the lowercased column names. -/
def dfData (d : Document) : List (List (String × String)) :=
  d.samples.map fun s => (allSampleKeys d.samples).map fun c => (pyLower c, sget s c)

/-- The merge with `Bioinformatics[['Sample_Project',
'library_construction_protocol', 'experiment_design_description']]` on
`sample_project == Sample_Project` (an inner join keeping left order: one
output row per matching Bioinformatics row) followed by
`drop(columns='Sample_Project')`: the two protocol columns are appended to
each matched row. -/
def mergeBio (bt : Table) (rows : List (List (String × String))) :
    List (List (String × String)) :=
  (rows.map fun r =>
    (bt.rows.filter fun br =>
        rowCell bt.columns br "Sample_Project" = Cell.s (sget r "sample_project")).map
      fun br => r ++
        [("library_construction_protocol",
          (rowCell bt.columns br "library_construction_protocol").toStr),
         ("experiment_design_description",
          (rowCell bt.columns br "experiment_design_description").toStr)]).flatten

/-- `sort_values(by=c)`: Python string comparison on the column's values. -/
def sortByCol (c : String) (rows : List (List (String × String))) :
    List (List (String × String)) :=
  rows.insertionSort fun a b => charListLe (sget a c).toList (sget b c).toList

/-- `sample_sheet_to_dataframe`: build the data block, join the three
Bioinformatics columns, and sort by `sample_well` or `well_id_384`. -/
def sampleSheetToDataframe (d : Document) :
    Except String (List (List (String × String))) :=
  match d.bioinformatics with
  | none => .error "TypeError: 'NoneType' object is not subscriptable"
  | some bt =>
    let out := mergeBio bt (dfData d)
    if "sample_well" ∈ (allSampleKeys d.samples).map pyLower then
      .ok (sortByCol "sample_well" out)
    else if "well_id_384" ∈ (allSampleKeys d.samples).map pyLower then
      .ok (sortByCol "well_id_384" out)
    else
      .error "'Sample_Well' and 'well_id_384' columns are not present"

/-- `df.drop(columns=ks)` for row-wise association lists. -/
def dropKeys (ks : List String) (r : List (String × String)) :
    List (String × String) :=
  r.filter fun kv => kv.1 ∉ ks

/-- A row's quadrant:
`plate.get_96_well_location_and_quadrant(row.destination_well_384)[0]`. -/
def rowQuad (quadOf : String → Nat) (r : List (String × String)) : Nat :=
  quadOf (sget r "destination_well_384")

/-- `sorted(...)` over quadrant numbers. -/
def sortNats (l : List Nat) : List Nat :=
  l.insertionSort fun a b => a ≤ b

/-- `_demux_sample_sheet`: drop the two protocol columns, compute each
row's quadrant, and return one sub-dataframe per distinct quadrant in
ascending order (the temporary `quad` column is dropped again by the
filter). -/
def demuxDataframes (quadOf : String → Nat) (d : Document) :
    Except String (List (List (List (String × String)))) :=
  match sampleSheetToDataframe d with
  | .error e => .error e
  | .ok df0 =>
    let df := df0.map (dropKeys
      ["library_construction_protocol", "experiment_design_description"])
    let quads := sortNats (dedupFirst (df.map (rowQuad quadOf)))
    .ok (quads.map fun q => df.filter fun r => rowQuad quadOf r = q)

/-- `sheet_needs_demuxing`: with a `contains_replicates` column present the
unique values must agree and the single value is returned; a legacy sheet
without the column yields `False`. -/
def sheetNeedsDemuxing (d : Document) : Except String Cell :=
  match d.bioinformatics with
  | none => .error "AttributeError: 'NoneType' object has no attribute 'columns'"
  | some bt =>
    if "contains_replicates" ∈ bt.columns then
      match colCells bt "contains_replicates" with
      | none => .error "KeyError: 'contains_replicates'"
      | some col =>
        if 1 < (dedupFirst col).length then
          .error "all projects in Bioinformatics section must either contain replicates or not."
        else
          match dedupFirst col with
          | [] => .error "IndexError: list index out of range"
          | c :: _ => .ok c
    else .ok (Cell.b false)

/-- `_create_sample_sheet`'s type dispatch, reduced to the recognition
check (the created object's sections are all overwritten by
`demux_sample_sheet`). -/
def createSheetCheck (sheetType sheetVersion assay : String) :
    Except String Unit :=
  if sheetType = "standard_metag" then
    if assay = "Metagenomic" then
      if sheetVersion = "101" ∨ sheetVersion = "90" ∨
          sheetVersion ∈ ["95", "99", "100"] then .ok ()
      else .error ("'" ++ sheetVersion ++
        "' is an unrecognized SheetVersion for '" ++ sheetType ++ "'")
    else if assay = "Metatranscriptomic" then .ok ()
    else .error ("'" ++ assay ++ "' is an unrecognized Assay type")
  else if sheetType = "standard_metat" then
    if assay = "Metatranscriptomic" then
      if sheetVersion = "0" ∨ sheetVersion = "10" then .ok ()
      else .error ("'" ++ sheetVersion ++
        "' is an unrecognized SheetVersion for '" ++ sheetType ++ "'")
    else .error ("'" ++ assay ++ "' is an unrecognized Assay type")
  else if sheetType = "abs_quant_metag" then .ok ()
  else if sheetType = "dummy_amp" then .ok ()
  else if sheetType = "tellseq_metag" then .ok ()
  else .error ("'" ++ sheetType ++ "' is an unrecognized SheetType")

/-- `df.rename(columns=...)` of `demux_sample_sheet`. -/
def demuxRename (k : String) : String :=
  if k = "orig_name" then "Sample_Name"
  else if k = "i7_index_id" then "I7_Index_ID"
  else if k = "i5_index_id" then "I5_Index_ID"
  else if k = "sample_project" then "Sample_Project"
  else k

/-- One record of `df.to_dict(orient='records')` after
`df['Sample_ID'] = df.index`, `df.drop('sample_name', axis=1)` and the
renames; the `sample_id` index itself is not part of a record. -/
def demuxRecord (r : List (String × String)) : List (String × String) :=
  ((r ++ [("Sample_ID", sget r "sample_id")]).filter fun kv =>
      kv.1 ≠ "sample_name" ∧ kv.1 ≠ "sample_id").map
    fun kv => (demuxRename kv.1, kv.2)

/-- `t.loc[t['Sample_Project'].isin(projects)]`. -/
def filterByProjects (t : Table) (projects : List String) : Table :=
  { t with rows := t.rows.filter fun br =>
      rowCell t.columns br "Sample_Project" ∈ projects.map Cell.s }

/-- `t.drop([c], axis=1)`. -/
def dropTableCol (t : Table) (c : String) : Table :=
  match t.columns.indexOf? c with
  | none => t
  | some i =>
    { columns := t.columns.eraseIdx i, rows := t.rows.map fun r => r.eraseIdx i }

/-- The sheet built for one demuxed dataframe: Header/Reads/Settings from
the input, Bioinformatics and Contact restricted to the dataframe's
projects (with `contains_replicates` dropped from the former), and the
records added as samples. -/
def buildDemuxedSheet (d : Document) (bt ct : Table)
    (df : List (List (String × String))) : Document :=
  let projects := dedupFirst (df.map fun r => sget r "sample_project")
  { header := d.header, reads := d.reads, settings := d.settings,
    samples := df.map demuxRecord,
    bioinformatics :=
      some (dropTableCol (filterByProjects bt projects) "contains_replicates"),
    contact := some (filterByProjects ct projects),
    others := [] }

/-- `demux_sample_sheet`: the replicate guards, then one new sheet per
demuxed dataframe (the per-iteration Header lookups and
`_create_sample_sheet` dispatch happen only when at least one dataframe
exists, as in the source's loop). -/
def demuxSampleSheet (quadOf : String → Nat) (d : Document) :
    Except String (List Document) :=
  match d.bioinformatics with
  | none => .error "TypeError: argument of type 'NoneType' is not iterable"
  | some bt =>
    if "contains_replicates" ∈ bt.columns then
      match colCells bt "contains_replicates" with
      | none => .error "KeyError: 'contains_replicates'"
      | some col =>
        if 1 < (dedupFirst col).length then
          .error "all projects in Bioinformatics section must either contain replicates or not."
        else
          match dedupFirst col with
          | [] => .error "IndexError: list index out of range"
          | c :: _ =>
            if ¬ c.truthy then
              .error "all projects in Bioinformatics section do not contain replicates"
            else
              match demuxDataframes quadOf d with
              | .error e => .error e
              | .ok [] => .ok []
              | .ok dfs =>
                match d.header.lookup "SheetType" with
                | none => .error "KeyError: 'SheetType'"
                | some st =>
                  match d.header.lookup "SheetVersion" with
                  | none => .error "KeyError: 'SheetVersion'"
                  | some sv =>
                    match d.header.lookup "Assay" with
                    | none => .error "KeyError: 'Assay'"
                    | some asy =>
                      match createSheetCheck st sv asy with
                      | .error e => .error e
                      | .ok _ =>
                        match d.contact with
                        | none => .error "AttributeError: 'NoneType' object has no attribute 'loc'"
                        | some ct => .ok (dfs.map (buildDemuxedSheet d bt ct))
    else .error "sample-sheet does not contain replicates"

/-- **C9**.  The applicability check and the demultiplexer's guard agree:
without a `contains_replicates` column `sheet_needs_demuxing` returns
`False` while `demux_sample_sheet` raises; with non-uniform values both
raise the same `ValueError`; and whenever `demux_sample_sheet` completes,
`sheet_needs_demuxing` returns a truthy value. -/
theorem C9_needs_demuxing_vs_demux_guard (quadOf : String → Nat)
    (d : Document) (bt : Table) (hb : d.bioinformatics = some bt) :
    ("contains_replicates" ∉ bt.columns →
      sheetNeedsDemuxing d = .ok (Cell.b false) ∧
      demuxSampleSheet quadOf d = .error "sample-sheet does not contain replicates") ∧
    (∀ col, colCells bt "contains_replicates" = some col →
      1 < (dedupFirst col).length →
      sheetNeedsDemuxing d =
        .error "all projects in Bioinformatics section must either contain replicates or not." ∧
      demuxSampleSheet quadOf d =
        .error "all projects in Bioinformatics section must either contain replicates or not.") ∧
    (∀ outs, demuxSampleSheet quadOf d = .ok outs →
      ∃ c, sheetNeedsDemuxing d = .ok c ∧ c.truthy = true) := by
  refine ⟨?_, ?_, ?_⟩
  · intro hnc
    unfold sheetNeedsDemuxing demuxSampleSheet
    rw [hb]
    dsimp only []
    rw [if_neg hnc, if_neg hnc]
    exact ⟨rfl, rfl⟩
  · intro col hcol hlen
    unfold sheetNeedsDemuxing demuxSampleSheet
    rw [hb]
    dsimp only []
    have hmem : "contains_replicates" ∈ bt.columns := by
      by_contra hn
      have hnone : bt.columns.indexOf? "contains_replicates" = none :=
        List.indexOf?_eq_none_iff.mpr fun x hx hbeq =>
          hn ((by simpa using hbeq : x = "contains_replicates") ▸ hx)
      rw [colCells, hnone] at hcol
      exact Option.noConfusion hcol
    rw [if_pos hmem, if_pos hmem, hcol]
    dsimp only []
    rw [if_pos hlen, if_pos hlen]
    exact ⟨rfl, rfl⟩
  · intro outs houts
    unfold demuxSampleSheet at houts
    rw [hb] at houts
    dsimp only [] at houts
    unfold sheetNeedsDemuxing
    rw [hb]
    dsimp only []
    by_cases hmem : "contains_replicates" ∈ bt.columns
    · rw [if_pos hmem] at houts ⊢
      cases hcol : colCells bt "contains_replicates" with
      | none => rw [hcol] at houts; exact absurd houts (by simp)
      | some col =>
        rw [hcol] at houts
        dsimp only [] at houts ⊢
        by_cases hlen : 1 < (dedupFirst col).length
        · rw [if_pos hlen] at houts; exact absurd houts (by simp)
        · rw [if_neg hlen] at houts ⊢
          cases hcr : dedupFirst col with
          | nil => rw [hcr] at houts; exact absurd houts (by simp)
          | cons c rest =>
            rw [hcr] at houts
            dsimp only [] at houts ⊢
            by_cases htr : c.truthy
            · exact ⟨c, rfl, htr⟩
            · rw [if_pos (by simpa using htr)] at houts
              exact absurd houts (by simp)
    · rw [if_neg hmem] at houts
      exact absurd houts (by simp)

/-- A sample row for the demultiplexer examples. -/
def w5Sample (id name orig well dest proj : String) :
    List (String × String) :=
  [("Sample_ID", id), ("Sample_Name", name), ("orig_name", orig),
   ("well_id_384", well), ("Destination_Well_384", dest),
   ("Sample_Project", proj)]

/-- A two-sample replicate sheet whose samples land in two quadrants. -/
def c5Doc : Document :=
  { header := [("SheetType", "standard_metag"), ("SheetVersion", "100"),
               ("Assay", "Metagenomic")],
    reads := [151], settings := [],
    samples := [w5Sample "X1" "X1.A1" "X1" "A1" "A1" "P1",
                w5Sample "X2" "X2.B1" "X2" "B1" "N13" "P1"],
    bioinformatics := some { columns := ["Sample_Project", "library_construction_protocol", "experiment_design_description", "contains_replicates"], rows := [[Cell.s "P1", Cell.s "LCP", Cell.s "EDD", Cell.b true]] },
    contact := some { columns := ["Sample_Project", "Email"],
                      rows := [[Cell.s "P1", Cell.s "x@y.z"]] },
    others := [] }

/-- The quadrant collaborator for the examples: A1 sits in quadrant 1,
anything else in quadrant 2. -/
def quadOf5 (w : String) : Nat := if w = "A1" then 1 else 2

/-- `c5Doc` with the `contains_replicates` column removed. -/
def c9Legacy : Document :=
  { c5Doc with bioinformatics := some { columns := ["Sample_Project", "library_construction_protocol", "experiment_design_description"], rows := [[Cell.s "P1", Cell.s "LCP", Cell.s "EDD"]] } }

/-- Witness for `C9_needs_demuxing_vs_demux_guard`: on the legacy sheet
the checker returns `False` and the demultiplexer raises. -/
theorem C9_needs_demuxing_vs_demux_guard_witness :
    sheetNeedsDemuxing c9Legacy = .ok (Cell.b false) ∧
    demuxSampleSheet quadOf5 c9Legacy =
      .error "sample-sheet does not contain replicates" :=
  (C9_needs_demuxing_vs_demux_guard quadOf5 c9Legacy
    { columns := ["Sample_Project", "library_construction_protocol", "experiment_design_description"], rows := [[Cell.s "P1", Cell.s "LCP", Cell.s "EDD"]] }
    rfl).1 (by decide)

/-! ### List lemmas for the demultiplexer -/

theorem dedupAux_eq_nil [DecidableEq α] {seen l : List α}
    (h : ∀ x ∈ l, x ∈ seen) : dedupAux seen l = [] := by
  induction l generalizing seen with
  | nil => rfl
  | cons y tl ih =>
    unfold dedupAux
    rw [if_pos (h y (List.mem_cons_self y tl))]
    exact ih fun x hx => h x (List.mem_cons_of_mem y hx)

theorem dedupFirst_const [DecidableEq α] {l : List α} {a : α}
    (h : ∀ x ∈ l, x = a) (hne : l ≠ []) : dedupFirst l = [a] := by
  cases l with
  | nil => exact absurd rfl hne
  | cons y tl =>
    have hy : y = a := h y (List.mem_cons_self y tl)
    subst hy
    unfold dedupFirst dedupAux
    rw [if_neg (List.not_mem_nil y)]
    rw [dedupAux_eq_nil fun x hx => by
      rw [h x (List.mem_cons_of_mem y hx)]
      exact List.mem_cons_self y []]

theorem dedupAux_nodup [DecidableEq α] (seen l : List α) :
    (dedupAux seen l).Nodup ∧ ∀ x ∈ dedupAux seen l, x ∉ seen := by
  induction l generalizing seen with
  | nil => exact ⟨List.nodup_nil, fun x hx => absurd hx (List.not_mem_nil x)⟩
  | cons y tl ih =>
    unfold dedupAux
    by_cases hy : y ∈ seen
    · rw [if_pos hy]; exact ih seen
    · rw [if_neg hy]
      obtain ⟨hnd, hout⟩ := ih (y :: seen)
      refine ⟨List.nodup_cons.mpr ⟨fun hmem => ?_, hnd⟩, fun x hx => ?_⟩
      · exact hout y hmem (List.mem_cons_self y seen)
      · rcases List.mem_cons.mp hx with rfl | hx2
        · exact hy
        · exact fun hs => hout x hx2 (List.mem_cons_of_mem y hs)

theorem dedupFirst_nodup [DecidableEq α] (l : List α) : (dedupFirst l).Nodup :=
  (dedupAux_nodup [] l).1

theorem unionFilterPerm [DecidableEq κ] (f : α → κ) :
    ∀ (Q : List κ) (L : List α), Q.Nodup → (∀ x ∈ L, f x ∈ Q) →
    ((Q.map fun q => L.filter fun x => f x = q).flatten).Perm L := by
  intro Q
  induction Q with
  | nil =>
    intro L _ hcov
    cases L with
    | nil => exact List.Perm.refl _
    | cons x tl => exact absurd (hcov x (List.mem_cons_self x tl)) (List.not_mem_nil _)
  | cons q Q ih =>
    intro L hnd hcov
    rw [List.map_cons, List.flatten_cons]
    rw [List.nodup_cons] at hnd
    have hrw : (Q.map fun q2 => L.filter fun x => f x = q2) =
        Q.map fun q2 => (L.filter fun x => ¬ f x = q).filter fun x => f x = q2 := by
      refine List.map_congr_left fun q2 hq2 => ?_
      rw [List.filter_filter]
      refine (List.filter_congr fun x _ => ?_).symm
      by_cases hfx : f x = q2
      · have hq2q : ¬ q2 = q := fun he => hnd.1 (he ▸ hq2)
        simp [hfx, hq2q]
      · simp [hfx]
    rw [hrw]
    have hperm2 := ih (L.filter fun x => ¬ f x = q) hnd.2 ?_
    · refine ((List.Perm.append_left _ hperm2).trans ?_)
      have := List.filter_append_perm (fun x => decide (f x = q)) L
      simpa using this
    · intro x hx
      have hmem := List.mem_of_mem_filter hx
      have hne : ¬ f x = q := by
        have := List.of_mem_filter hx
        simpa using this
      rcases List.mem_cons.mp (hcov x hmem) with he | hQ
      · exact absurd he hne
      · exact hQ

theorem forall₂_map_self (F : α → β) (P : β → α → Prop) :
    ∀ l : List α, (∀ q ∈ l, P (F q) q) → List.Forall₂ P (l.map F) l
  | [], _ => List.Forall₂.nil
  | q :: tl, h =>
    List.Forall₂.cons (h q (List.mem_cons_self q tl))
      (forall₂_map_self F P tl fun x hx => h x (List.mem_cons_of_mem q hx))

theorem flatten_map_singletons (l : List α) (hf : α → List β) (g : α → β)
    (hsing : ∀ r ∈ l, hf r = [g r]) : (l.map hf).flatten = l.map g := by
  induction l with
  | nil => rfl
  | cons r tl ih =>
    rw [List.map_cons, List.flatten_cons, hsing r (List.mem_cons_self r tl),
      List.map_cons, ih fun x hx => hsing x (List.mem_cons_of_mem r hx)]
    rfl

theorem sorted_lt_of_le_nodup {l : List Nat} (hs : l.Sorted (· ≤ ·))
    (hn : l.Nodup) : l.Sorted (· < ·) :=
  (hs.and hn).imp fun h => lt_of_le_of_ne h.1 h.2

/-! ### Row lookup lemmas for the demultiplexer -/

theorem lookup_append_keys_ne (r ext : List (String × String)) (k : String)
    (h : ∀ kv ∈ ext, kv.1 ≠ k) : (r ++ ext).lookup k = r.lookup k := by
  induction r with
  | nil =>
    rw [List.nil_append, List.lookup_nil]
    exact lookup_eq_none_of_not_mem fun hm => by
      obtain ⟨kv, hkv, hfst⟩ := List.mem_map.mp hm
      exact h kv hkv hfst
  | cons kv tl ih =>
    cases kv with
    | mk a b =>
      rw [List.cons_append, List.lookup_cons, List.lookup_cons]
      cases hbeq : (k == a) with
      | true => rfl
      | false => exact ih

theorem lookup_append_left_none (r ext : List (String × String)) (k : String)
    (h : r.lookup k = none) : (r ++ ext).lookup k = ext.lookup k := by
  induction r with
  | nil => rw [List.nil_append]
  | cons kv tl ih =>
    cases kv with
    | mk a b =>
      rw [List.lookup_cons] at h
      rw [List.cons_append, List.lookup_cons]
      cases hbeq : (k == a) with
      | true => rw [hbeq] at h; exact absurd h (by simp)
      | false => rw [hbeq] at h; exact ih h

theorem lookup_filter_keep (p : String × String → Bool)
    (r : List (String × String)) (k : String) (hk : ∀ v, p (k, v) = true) :
    (r.filter p).lookup k = r.lookup k := by
  induction r with
  | nil => rfl
  | cons kv tl ih =>
    cases kv with
    | mk a b =>
      by_cases hak : a = k
      · subst hak
        rw [List.filter_cons, if_pos (hk b), List.lookup_cons, List.lookup_cons,
          beq_self_eq_true]
      · rw [List.filter_cons]
        by_cases hpb : p (a, b) = true
        · rw [if_pos hpb, List.lookup_cons, List.lookup_cons]
          cases hbeq : (k == a) with
          | true => exact absurd (eq_of_beq hbeq).symm hak
          | false => exact ih
        · rw [if_neg hpb, List.lookup_cons]
          cases hbeq : (k == a) with
          | true => exact absurd (eq_of_beq hbeq).symm hak
          | false => exact ih

theorem lookup_map_rename (f : String → String) (r : List (String × String))
    (K k0 : String) (h0 : f k0 = K)
    (huniq : ∀ kv ∈ r, f kv.1 = K → kv.1 = k0) :
    (r.map fun kv => (f kv.1, kv.2)).lookup K = r.lookup k0 := by
  induction r with
  | nil => rfl
  | cons kv tl ih =>
    cases kv with
    | mk a b =>
      rw [List.map_cons, List.lookup_cons, List.lookup_cons]
      by_cases hfa : f a = K
      · have ha : a = k0 := huniq (a, b) (List.mem_cons_self _ _) hfa
        subst ha
        rw [show (K == f a) = true from beq_iff_eq.mpr hfa.symm,
          show (a == a) = true from beq_iff_eq.mpr rfl]
      · have hak : a ≠ k0 := fun he => hfa (he ▸ h0)
        rw [show (K == f a) = false from by
            cases hbeq : (K == f a) with
            | true => exact absurd (eq_of_beq hbeq).symm hfa
            | false => rfl,
          show (k0 == a) = false from by
            cases hbeq : (k0 == a) with
            | true => exact absurd (eq_of_beq hbeq).symm hak
            | false => rfl]
        exact ih fun kv hkv => huniq kv (List.mem_cons_of_mem _ hkv)

theorem lookup_keyed_map (ks : List String) (s : List (String × String))
    (K k0 : String) (h0 : pyLower k0 = K) (hmem : k0 ∈ ks)
    (huniq : ∀ c ∈ ks, pyLower c = K → c = k0) :
    (ks.map fun c => (pyLower c, sget s c)).lookup K = some (sget s k0) := by
  induction ks with
  | nil => exact absurd hmem (List.not_mem_nil k0)
  | cons c tl ih =>
    rw [List.map_cons, List.lookup_cons]
    by_cases hfc : pyLower c = K
    · have hc : c = k0 := huniq c (List.mem_cons_self _ _) hfc
      subst hc
      rw [show (K == pyLower c) = true from beq_iff_eq.mpr hfc.symm]
    · have hck : c ≠ k0 := fun he => hfc (he ▸ h0)
      rw [show (K == pyLower c) = false from by
          cases hbeq : (K == pyLower c) with
          | true => exact absurd (eq_of_beq hbeq).symm hfc
          | false => rfl]
      have hmem2 : k0 ∈ tl := by
        rcases List.mem_cons.mp hmem with he | h2
        · exact absurd he.symm hck
        · exact h2
      exact ih hmem2 fun x hx => huniq x (List.mem_cons_of_mem _ hx)

theorem demuxRename_cases {k K : String} (h : demuxRename k = K) :
    k = K ∨ (k = "orig_name" ∧ K = "Sample_Name") ∨
      (k = "i7_index_id" ∧ K = "I7_Index_ID") ∨
      (k = "i5_index_id" ∧ K = "I5_Index_ID") ∨
      (k = "sample_project" ∧ K = "Sample_Project") := by
  unfold demuxRename at h
  by_cases h1 : k = "orig_name"
  · rw [if_pos h1] at h; exact Or.inr (Or.inl ⟨h1, h.symm⟩)
  · rw [if_neg h1] at h
    by_cases h2 : k = "i7_index_id"
    · rw [if_pos h2] at h; exact Or.inr (Or.inr (Or.inl ⟨h2, h.symm⟩))
    · rw [if_neg h2] at h
      by_cases h3 : k = "i5_index_id"
      · rw [if_pos h3] at h
        exact Or.inr (Or.inr (Or.inr (Or.inl ⟨h3, h.symm⟩)))
      · rw [if_neg h3] at h
        by_cases h4 : k = "sample_project"
        · rw [if_pos h4] at h
          exact Or.inr (Or.inr (Or.inr (Or.inr ⟨h4, h.symm⟩)))
        · rw [if_neg h4] at h; exact Or.inl h

theorem sget_demuxRecord_dest (r : List (String × String)) :
    sget (demuxRecord r) "destination_well_384" =
      sget r "destination_well_384" := by
  unfold demuxRecord sget
  rw [lookup_map_rename demuxRename _ "destination_well_384"
      "destination_well_384" rfl fun kv _ hkv => by
    rcases demuxRename_cases hkv with he | h | h | h | h
    · exact he
    · exact absurd h.2 (by decide)
    · exact absurd h.2 (by decide)
    · exact absurd h.2 (by decide)
    · exact absurd h.2 (by decide)]
  rw [lookup_filter_keep _ _ _ fun v => rfl]
  rw [lookup_append_keys_ne _ _ _ fun kv hkv => by
    rcases List.mem_singleton.mp hkv with rfl
    simp]

theorem sget_demuxRecord_sp (r : List (String × String))
    (hr : ∀ kv ∈ r, kv.1 ≠ "Sample_Project") :
    sget (demuxRecord r) "Sample_Project" = sget r "sample_project" := by
  unfold demuxRecord sget
  rw [lookup_map_rename demuxRename _ "Sample_Project" "sample_project" rfl
    fun kv hkv hrn => by
      rcases demuxRename_cases hrn with he | h | h | h | h
      · rcases List.mem_append.mp (List.mem_of_mem_filter hkv) with hin | hone
        · exact absurd he (hr kv hin)
        · rcases List.mem_singleton.mp hone with rfl
          simp at he
      · exact absurd h.2 (by decide)
      · exact absurd h.2 (by decide)
      · exact absurd h.2 (by decide)
      · exact h.1]
  rw [lookup_filter_keep _ _ _ fun v => rfl]
  rw [lookup_append_keys_ne _ _ _ fun kv hkv => by
    rcases List.mem_singleton.mp hkv with rfl
    simp]

theorem sget_demuxRecord_sid (r : List (String × String))
    (hr : ∀ kv ∈ r, kv.1 ≠ "Sample_ID") :
    sget (demuxRecord r) "Sample_ID" = sget r "sample_id" := by
  unfold demuxRecord sget
  rw [lookup_map_rename demuxRename _ "Sample_ID" "Sample_ID" rfl
    fun kv _ hrn => by
      rcases demuxRename_cases hrn with he | h | h | h | h
      · exact he
      · exact absurd h.2 (by decide)
      · exact absurd h.2 (by decide)
      · exact absurd h.2 (by decide)
      · exact absurd h.2 (by decide)]
  rw [lookup_filter_keep _ _ _ fun v => rfl]
  rw [lookup_append_left_none _ _ _ (lookup_eq_none_of_not_mem fun hm => by
    obtain ⟨kv, hkv, hfst⟩ := List.mem_map.mp hm
    exact hr kv hkv hfst)]
  rw [List.lookup_cons]
  rw [show (("Sample_ID" : String) == "Sample_ID") = true from rfl]
  rfl

/-! ### Pipeline lemmas for the demultiplexer -/

/-- The merged, protocol-stripped dataframe `_demux_sample_sheet` computes
for a sheet that sorts by `well_id_384`. -/
def demuxDF (d : Document) (bt : Table) : List (List (String × String)) :=
  (sortByCol "well_id_384" (mergeBio bt (dfData d))).map
    (dropKeys ["library_construction_protocol", "experiment_design_description"])

theorem sampleSheetToDataframe_eq {d : Document} {bt : Table}
    (hb : d.bioinformatics = some bt)
    (hw1 : "sample_well" ∉ (allSampleKeys d.samples).map pyLower)
    (hw2 : "well_id_384" ∈ (allSampleKeys d.samples).map pyLower) :
    sampleSheetToDataframe d =
      .ok (sortByCol "well_id_384" (mergeBio bt (dfData d))) := by
  unfold sampleSheetToDataframe
  rw [hb]
  dsimp only []
  rw [if_neg hw1, if_pos hw2]

theorem demuxDataframes_eq {quadOf : String → Nat} {d : Document} {bt : Table}
    (hb : d.bioinformatics = some bt)
    (hw1 : "sample_well" ∉ (allSampleKeys d.samples).map pyLower)
    (hw2 : "well_id_384" ∈ (allSampleKeys d.samples).map pyLower) :
    demuxDataframes quadOf d = .ok
      ((sortNats (dedupFirst ((demuxDF d bt).map (rowQuad quadOf)))).map fun q =>
        (demuxDF d bt).filter fun r => rowQuad quadOf r = q) := by
  unfold demuxDataframes
  rw [sampleSheetToDataframe_eq hb hw1 hw2]
  rfl

theorem mem_mergeBio {bt : Table} {rows : List (List (String × String))}
    {r2 : List (String × String)} (h : r2 ∈ mergeBio bt rows) :
    ∃ r ∈ rows, ∃ br, r2 = r ++
      [("library_construction_protocol",
        (rowCell bt.columns br "library_construction_protocol").toStr),
       ("experiment_design_description",
        (rowCell bt.columns br "experiment_design_description").toStr)] := by
  unfold mergeBio at h
  rw [List.mem_flatten] at h
  obtain ⟨inner, hinner, hr⟩ := h
  obtain ⟨r, hrmem, rfl⟩ := List.mem_map.mp hinner
  obtain ⟨br, _, rfl⟩ := List.mem_map.mp hr
  exact ⟨r, hrmem, br, rfl⟩

theorem demuxDF_keys {d : Document} {bt : Table} {r : List (String × String)}
    (hmem : r ∈ demuxDF d bt) :
    ∀ kv ∈ r, kv.1 ∈ (allSampleKeys d.samples).map pyLower := by
  unfold demuxDF at hmem
  obtain ⟨r1, hr1, rfl⟩ := List.mem_map.mp hmem
  have hr1s : r1 ∈ mergeBio bt (dfData d) :=
    (List.perm_insertionSort _ _).subset hr1
  obtain ⟨r0, hr0, br, rfl⟩ := mem_mergeBio hr1s
  obtain ⟨s, _, rfl⟩ := List.mem_map.mp hr0
  intro kv hkv
  have hnotin := List.of_mem_filter hkv
  have hkv1 := List.mem_of_mem_filter hkv
  rcases List.mem_append.mp hkv1 with hin | hext
  · obtain ⟨c, hc, rfl⟩ := List.mem_map.mp hin
    exact List.mem_map_of_mem pyLower hc
  · rcases List.mem_cons.mp hext with rfl | hext2
    · simp at hnotin
    · rcases List.mem_singleton.mp hext2 with rfl
      simp at hnotin

theorem mergeBio_map_sget {bt : Table} {rows : List (List (String × String))}
    (k : String) (hk1 : k ≠ "library_construction_protocol")
    (hk2 : k ≠ "experiment_design_description")
    (hjoin : ∀ r ∈ rows, (bt.rows.filter fun br =>
      rowCell bt.columns br "Sample_Project" =
        Cell.s (sget r "sample_project")).length = 1) :
    (mergeBio bt rows).map (fun r => sget r k) = rows.map fun r => sget r k := by
  unfold mergeBio
  rw [List.map_flatten, List.map_map]
  refine flatten_map_singletons rows _ _ fun r hr => ?_
  obtain ⟨br0, hbr0⟩ := List.length_eq_one.mp (hjoin r hr)
  dsimp only [Function.comp]
  rw [hbr0, List.map_cons, List.map_nil, List.map_cons, List.map_nil]
  have hs : sget (r ++ [("library_construction_protocol",
      (rowCell bt.columns br0 "library_construction_protocol").toStr),
     ("experiment_design_description",
      (rowCell bt.columns br0 "experiment_design_description").toStr)]) k =
      sget r k := by
    unfold sget
    rw [lookup_append_keys_ne _ _ _ fun kv hkv => by
      rcases List.mem_cons.mp hkv with rfl | h2
      · exact fun he => hk1 he.symm
      · rcases List.mem_singleton.mp h2 with rfl
        exact fun he => hk2 he.symm]
  rw [hs]

theorem not_mem_eraseIdx_of_indexOf {l : List String} {a : String} :
    ∀ {i : Nat}, l.Nodup → l.indexOf? a = some i → a ∉ l.eraseIdx i := by
  induction l with
  | nil =>
    intro i _ h
    exact absurd h (by simp [List.indexOf?])
  | cons x xs ih =>
    intro i hnd h
    rw [List.nodup_cons] at hnd
    rw [List.indexOf?_cons] at h
    by_cases hxa : x = a
    · rw [if_pos (beq_iff_eq.mpr hxa)] at h
      obtain rfl : (0 : Nat) = i := Option.some.inj h
      rw [List.eraseIdx_cons_zero]
      exact fun hmem => hnd.1 (hxa ▸ hmem)
    · rw [if_neg fun hbeq => hxa (eq_of_beq hbeq)] at h
      obtain ⟨j, hj, hji⟩ := Option.map_eq_some'.mp h
      subst hji
      rw [List.eraseIdx_cons_succ]
      intro hmem
      rcases List.mem_cons.mp hmem with he | h2
      · exact hxa he.symm
      · exact ih hnd.2 hj h2

theorem dropTableCol_eq {t : Table} {c : String} {i : Nat}
    (h : t.columns.indexOf? c = some i) :
    dropTableCol t c = { columns := t.columns.eraseIdx i, rows := t.rows.map fun r => r.eraseIdx i } := by
  unfold dropTableCol
  rw [h]

theorem mem_map_dedupFirst_iff [DecidableEq α] {l : List α} {f : α → β} {x : β} :
    x ∈ (dedupFirst l).map f ↔ x ∈ l.map f := by
  constructor
  · intro h
    obtain ⟨a, ha, rfl⟩ := List.mem_map.mp h
    exact List.mem_map_of_mem f (mem_dedupFirst_iff.mp ha)
  · intro h
    obtain ⟨a, ha, rfl⟩ := List.mem_map.mp h
    exact List.mem_map_of_mem f (mem_dedupFirst_iff.mpr ha)

/-- **C5**.  For an applicable sheet (uniformly-`True` boolean
`contains_replicates` column, one Bioinformatics row per sample project,
`well_id_384` present) the demultiplexer returns one non-empty output per
distinct quadrant in strictly ascending quadrant order; the multiset of
`Sample_ID`s across the outputs is exactly the input's; all samples of one
output share that output's quadrant; each output's Bioinformatics and
Contact rows are exactly the input rows whose project occurs among the
output's samples, with `contains_replicates` dropped from the former. -/
theorem C5_demux_partition (quadOf : String → Nat) (d : Document)
    (bt ct : Table) (st sv asy : String)
    (hb : d.bioinformatics = some bt) (hct : d.contact = some ct)
    (hcolmem : "contains_replicates" ∈ bt.columns)
    (hcr : ∀ br ∈ bt.rows,
      rowCell bt.columns br "contains_replicates" = Cell.b true)
    (hrows : bt.rows ≠ [])
    (hjoin : ∀ r ∈ dfData d, (bt.rows.filter fun br =>
      rowCell bt.columns br "Sample_Project" =
        Cell.s (sget r "sample_project")).length = 1)
    (hw1 : "sample_well" ∉ (allSampleKeys d.samples).map pyLower)
    (hw2 : "well_id_384" ∈ (allSampleKeys d.samples).map pyLower)
    (hygSID : "Sample_ID" ∉ (allSampleKeys d.samples).map pyLower)
    (hygSP : "Sample_Project" ∉ (allSampleKeys d.samples).map pyLower)
    (hid1 : "Sample_ID" ∈ allSampleKeys d.samples)
    (hid2 : ∀ c ∈ allSampleKeys d.samples,
      pyLower c = "sample_id" → c = "Sample_ID")
    (hst : d.header.lookup "SheetType" = some st)
    (hsv : d.header.lookup "SheetVersion" = some sv)
    (hasy : d.header.lookup "Assay" = some asy)
    (hcreate : createSheetCheck st sv asy = .ok ())
    (hbnodup : bt.columns.Nodup) :
    ∃ outs qs, demuxSampleSheet quadOf d = .ok outs ∧
      qs.Sorted (· < ·) ∧
      List.Forall₂ (fun o q => o.samples ≠ [] ∧
        ∀ r ∈ o.samples, quadOf (sget r "destination_well_384") = q) outs qs ∧
      ((outs.map Document.samples).flatten.map fun r =>
        sget r "Sample_ID").Perm (d.samples.map fun s => sget s "Sample_ID") ∧
      (∀ o ∈ outs, ∃ obt j, o.bioinformatics = some obt ∧
        bt.columns.indexOf? "contains_replicates" = some j ∧
        obt.columns = bt.columns.eraseIdx j ∧
        "contains_replicates" ∉ obt.columns ∧
        obt.rows = (bt.rows.filter fun br =>
          rowCell bt.columns br "Sample_Project" ∈
            o.samples.map fun r => Cell.s (sget r "Sample_Project")).map
          fun br => br.eraseIdx j) ∧
      (∀ o ∈ outs, ∃ oct, o.contact = some oct ∧ oct.columns = ct.columns ∧
        oct.rows = ct.rows.filter fun cr =>
          rowCell ct.columns cr "Sample_Project" ∈
            o.samples.map fun r => Cell.s (sget r "Sample_Project")) := by
  have hidxe : ∃ i, bt.columns.indexOf? "contains_replicates" = some i := by
    cases hopt : bt.columns.indexOf? "contains_replicates" with
    | some i => exact ⟨i, rfl⟩
    | none =>
      have hall := List.indexOf?_eq_none_iff.mp hopt
      exact absurd (hall _ hcolmem) (by simp)
  obtain ⟨i, hidx⟩ := hidxe
  have hcol : colCells bt "contains_replicates" =
      some (bt.rows.map fun r => r.getD i (Cell.s "")) := by
    rw [colCells, hidx]
    rfl
  have hdedup : dedupFirst (bt.rows.map fun r => r.getD i (Cell.s "")) =
      [Cell.b true] := by
    refine dedupFirst_const (fun x hx => ?_)
      (fun hnil => hrows (List.map_eq_nil_iff.mp hnil))
    obtain ⟨br, hbr, rfl⟩ := List.mem_map.mp hx
    have h2 := hcr br hbr
    rw [rowCell, hidx] at h2
    exact h2
  have hkeysne : ∀ r0 ∈ demuxDF d bt,
      (∀ kv ∈ r0, kv.1 ≠ "Sample_Project") ∧
      (∀ kv ∈ r0, kv.1 ≠ "Sample_ID") := by
    intro r0 hr0
    constructor
    · exact fun kv hkv he => hygSP (he ▸ demuxDF_keys hr0 kv hkv)
    · exact fun kv hkv he => hygSID (he ▸ demuxDF_keys hr0 kv hkv)
  have hQs : (sortNats (dedupFirst
      ((demuxDF d bt).map (rowQuad quadOf)))).Sorted (· ≤ ·) :=
    List.sorted_insertionSort _ _
  have hQperm : (sortNats (dedupFirst
      ((demuxDF d bt).map (rowQuad quadOf)))).Perm
      (dedupFirst ((demuxDF d bt).map (rowQuad quadOf))) :=
    List.perm_insertionSort _ _
  have hQnd : (sortNats (dedupFirst
      ((demuxDF d bt).map (rowQuad quadOf)))).Nodup :=
    hQperm.nodup_iff.mpr (dedupFirst_nodup _)
  have hQlt := sorted_lt_of_le_nodup hQs hQnd
  have hQcov : ∀ r ∈ demuxDF d bt, rowQuad quadOf r ∈
      sortNats (dedupFirst ((demuxDF d bt).map (rowQuad quadOf))) :=
    fun r hr => hQperm.mem_iff.mpr
      (mem_dedupFirst_iff.mpr (List.mem_map_of_mem _ hr))
  have hQmem : ∀ q ∈ sortNats (dedupFirst
      ((demuxDF d bt).map (rowQuad quadOf))),
      ∃ r ∈ demuxDF d bt, rowQuad quadOf r = q := by
    intro q hq
    have h2 := mem_dedupFirst_iff.mp (hQperm.subset hq)
    obtain ⟨r, hr, he⟩ := List.mem_map.mp h2
    exact ⟨r, hr, he⟩
  have hrun : demuxSampleSheet quadOf d = .ok
      (((sortNats (dedupFirst ((demuxDF d bt).map (rowQuad quadOf)))).map
        fun q => (demuxDF d bt).filter fun r => rowQuad quadOf r = q).map
        (buildDemuxedSheet d bt ct)) := by
    unfold demuxSampleSheet
    rw [hb]
    dsimp only []
    rw [if_pos hcolmem, hcol]
    dsimp only []
    rw [hdedup]
    rw [if_neg (by decide : ¬ (1:Nat) < ([Cell.b true] : List Cell).length)]
    dsimp only []
    rw [if_neg (by decide : ¬ ¬ (Cell.b true).truthy = true)]
    rw [demuxDataframes_eq hb hw1 hw2]
    cases hgs : (sortNats (dedupFirst
        ((demuxDF d bt).map (rowQuad quadOf)))).map
        fun q => (demuxDF d bt).filter fun r => rowQuad quadOf r = q with
    | nil => rfl
    | cons g gs =>
      dsimp only []
      rw [hst]
      dsimp only []
      rw [hsv]
      dsimp only []
      rw [hasy]
      dsimp only []
      rw [hcreate]
      dsimp only []
      rw [hct]
  refine ⟨_, _, hrun, hQlt, ?_, ?_, ?_, ?_⟩
  · -- Forall₂: one non-empty output per quadrant, single quadrant inside
    rw [List.map_map]
    refine forall₂_map_self _ _ _ fun q hq => ?_
    constructor
    · obtain ⟨r, hr, hrq⟩ := hQmem q hq
      intro hnil
      have hrg : r ∈ (demuxDF d bt).filter
          fun r2 => rowQuad quadOf r2 = q :=
        List.mem_filter.mpr ⟨hr, by simpa using hrq⟩
      have hsampeq : ((buildDemuxedSheet d bt ct ∘ fun q =>
          (demuxDF d bt).filter fun r => rowQuad quadOf r = q) q).samples =
          ((demuxDF d bt).filter fun r2 =>
            rowQuad quadOf r2 = q).map demuxRecord := rfl
      rw [hsampeq, List.map_eq_nil_iff] at hnil
      rw [hnil] at hrg
      exact List.not_mem_nil r hrg
    · intro r2 hr2
      have hsampeq : ((buildDemuxedSheet d bt ct ∘ fun q =>
          (demuxDF d bt).filter fun r => rowQuad quadOf r = q) q).samples =
          ((demuxDF d bt).filter fun r3 =>
            rowQuad quadOf r3 = q).map demuxRecord := rfl
      rw [hsampeq] at hr2
      obtain ⟨r0, hr0, rfl⟩ := List.mem_map.mp hr2
      rw [sget_demuxRecord_dest]
      have hq0 := List.of_mem_filter hr0
      simpa [rowQuad] using hq0
  · -- Sample_ID multiset preservation
    have hidseq : (((((sortNats (dedupFirst
        ((demuxDF d bt).map (rowQuad quadOf)))).map fun q =>
          (demuxDF d bt).filter fun r => rowQuad quadOf r = q).map
          (buildDemuxedSheet d bt ct)).map Document.samples).flatten.map
          fun r => sget r "Sample_ID") =
        (((sortNats (dedupFirst ((demuxDF d bt).map (rowQuad quadOf)))).map
          fun q => (demuxDF d bt).filter fun r =>
            rowQuad quadOf r = q).flatten.map
          fun r => sget (demuxRecord r) "Sample_ID") := by
      rw [List.map_map]
      rw [show (Document.samples ∘ buildDemuxedSheet d bt ct) =
        List.map demuxRecord from rfl]
      rw [← List.map_flatten, List.map_map]
      rfl
    rw [hidseq]
    have hflat := unionFilterPerm (rowQuad quadOf)
      (sortNats (dedupFirst ((demuxDF d bt).map (rowQuad quadOf))))
      (demuxDF d bt) hQnd hQcov
    refine (hflat.map _).trans ?_
    rw [List.map_congr_left fun r hr =>
      sget_demuxRecord_sid r ((hkeysne r hr).2)]
    have hdropped : (demuxDF d bt).map (fun r => sget r "sample_id") =
        (sortByCol "well_id_384" (mergeBio bt (dfData d))).map
          fun r => sget r "sample_id" := by
      show ((sortByCol "well_id_384" (mergeBio bt (dfData d))).map
        (dropKeys ["library_construction_protocol",
          "experiment_design_description"])).map
          (fun r => sget r "sample_id") = _
      rw [List.map_map]
      refine List.map_congr_left fun r _ => ?_
      show sget (dropKeys ["library_construction_protocol",
        "experiment_design_description"] r) "sample_id" = sget r "sample_id"
      unfold dropKeys sget
      rw [lookup_filter_keep _ _ _ fun v => rfl]
    rw [hdropped]
    have hsortperm : (sortByCol "well_id_384"
        (mergeBio bt (dfData d))).Perm (mergeBio bt (dfData d)) :=
      List.perm_insertionSort _ _
    refine (hsortperm.map _).trans ?_
    rw [mergeBio_map_sget "sample_id" (by decide) (by decide) hjoin]
    have hlast : (dfData d).map (fun r => sget r "sample_id") =
        d.samples.map fun s => sget s "Sample_ID" := by
      unfold dfData
      rw [List.map_map]
      refine List.map_congr_left fun s _ => ?_
      have hlk := lookup_keyed_map (allSampleKeys d.samples) s "sample_id"
        "Sample_ID" (by decide) hid1 hid2
      show (((allSampleKeys d.samples).map fun c =>
        (pyLower c, sget s c)).lookup "sample_id").getD "" =
        (s.lookup "Sample_ID").getD ""
      rw [hlk]
      rfl
    rw [hlast]
  · -- Bioinformatics restriction
    intro o ho
    obtain ⟨g, hg, rfl⟩ := List.mem_map.mp ho
    obtain ⟨q, _, rfl⟩ := List.mem_map.mp hg
    have hsub : ∀ r ∈ (demuxDF d bt).filter
        fun r => rowQuad quadOf r = q, r ∈ demuxDF d bt :=
      fun r hr => List.mem_of_mem_filter hr
    have hspmap : (((demuxDF d bt).filter fun r =>
        rowQuad quadOf r = q).map demuxRecord).map
          (fun r => Cell.s (sget r "Sample_Project")) =
        ((demuxDF d bt).filter fun r => rowQuad quadOf r = q).map
          fun r0 => Cell.s (sget r0 "sample_project") := by
      rw [List.map_map]
      refine List.map_congr_left fun r0 hr0 => ?_
      show Cell.s (sget (demuxRecord r0) "Sample_Project") = _
      rw [sget_demuxRecord_sp r0 ((hkeysne r0 (hsub r0 hr0)).1)]
    have hmemiff : ∀ cell : Cell,
        (cell ∈ (dedupFirst (((demuxDF d bt).filter fun r =>
          rowQuad quadOf r = q).map fun r =>
            sget r "sample_project")).map Cell.s) ↔
        (cell ∈ ((buildDemuxedSheet d bt ct ((demuxDF d bt).filter fun r =>
          rowQuad quadOf r = q)).samples.map
            fun r => Cell.s (sget r "Sample_Project"))) := by
      intro cell
      rw [show (buildDemuxedSheet d bt ct ((demuxDF d bt).filter fun r =>
        rowQuad quadOf r = q)).samples = ((demuxDF d bt).filter fun r =>
          rowQuad quadOf r = q).map demuxRecord from rfl]
      rw [hspmap]
      rw [mem_map_dedupFirst_iff]
      rw [List.map_map]
      rfl
    refine ⟨_, i, rfl, hidx, ?_, ?_, ?_⟩
    · rw [dropTableCol_eq (show (filterByProjects bt
        (dedupFirst (((demuxDF d bt).filter fun r =>
          rowQuad quadOf r = q).map fun r =>
            sget r "sample_project"))).columns.indexOf?
          "contains_replicates" = some i from hidx)]
      rfl
    · rw [dropTableCol_eq (show (filterByProjects bt
        (dedupFirst (((demuxDF d bt).filter fun r =>
          rowQuad quadOf r = q).map fun r =>
            sget r "sample_project"))).columns.indexOf?
          "contains_replicates" = some i from hidx)]
      exact not_mem_eraseIdx_of_indexOf hbnodup hidx
    · rw [dropTableCol_eq (show (filterByProjects bt
        (dedupFirst (((demuxDF d bt).filter fun r =>
          rowQuad quadOf r = q).map fun r =>
            sget r "sample_project"))).columns.indexOf?
          "contains_replicates" = some i from hidx)]
      show ((filterByProjects bt (dedupFirst (((demuxDF d bt).filter fun r =>
        rowQuad quadOf r = q).map fun r =>
          sget r "sample_project"))).rows.map fun r => r.eraseIdx i) = _
      rw [show (filterByProjects bt (dedupFirst (((demuxDF d bt).filter
        fun r => rowQuad quadOf r = q).map fun r =>
          sget r "sample_project"))).rows = bt.rows.filter (fun br =>
        rowCell bt.columns br "Sample_Project" ∈
          (dedupFirst (((demuxDF d bt).filter fun r =>
            rowQuad quadOf r = q).map fun r =>
              sget r "sample_project")).map Cell.s) from rfl]
      rw [List.filter_congr fun br _ => decide_eq_decide.mpr (hmemiff _)]
  · -- Contact restriction
    intro o ho
    obtain ⟨g, hg, rfl⟩ := List.mem_map.mp ho
    obtain ⟨q, _, rfl⟩ := List.mem_map.mp hg
    have hsub : ∀ r ∈ (demuxDF d bt).filter
        fun r => rowQuad quadOf r = q, r ∈ demuxDF d bt :=
      fun r hr => List.mem_of_mem_filter hr
    have hspmap : (((demuxDF d bt).filter fun r =>
        rowQuad quadOf r = q).map demuxRecord).map
          (fun r => Cell.s (sget r "Sample_Project")) =
        ((demuxDF d bt).filter fun r => rowQuad quadOf r = q).map
          fun r0 => Cell.s (sget r0 "sample_project") := by
      rw [List.map_map]
      refine List.map_congr_left fun r0 hr0 => ?_
      show Cell.s (sget (demuxRecord r0) "Sample_Project") = _
      rw [sget_demuxRecord_sp r0 ((hkeysne r0 (hsub r0 hr0)).1)]
    have hmemiff : ∀ cell : Cell,
        (cell ∈ (dedupFirst (((demuxDF d bt).filter fun r =>
          rowQuad quadOf r = q).map fun r =>
            sget r "sample_project")).map Cell.s) ↔
        (cell ∈ ((buildDemuxedSheet d bt ct ((demuxDF d bt).filter fun r =>
          rowQuad quadOf r = q)).samples.map
            fun r => Cell.s (sget r "Sample_Project"))) := by
      intro cell
      rw [show (buildDemuxedSheet d bt ct ((demuxDF d bt).filter fun r =>
        rowQuad quadOf r = q)).samples = ((demuxDF d bt).filter fun r =>
          rowQuad quadOf r = q).map demuxRecord from rfl]
      rw [hspmap]
      rw [mem_map_dedupFirst_iff]
      rw [List.map_map]
      rfl
    refine ⟨_, rfl, rfl, ?_⟩
    show (filterByProjects ct (dedupFirst (((demuxDF d bt).filter fun r =>
      rowQuad quadOf r = q).map fun r => sget r "sample_project"))).rows = _
    rw [show (filterByProjects ct (dedupFirst (((demuxDF d bt).filter
      fun r => rowQuad quadOf r = q).map fun r =>
        sget r "sample_project"))).rows = ct.rows.filter (fun cr =>
      rowCell ct.columns cr "Sample_Project" ∈
        (dedupFirst (((demuxDF d bt).filter fun r =>
          rowQuad quadOf r = q).map fun r =>
            sget r "sample_project")).map Cell.s) from rfl]
    rw [List.filter_congr fun cr _ => decide_eq_decide.mpr (hmemiff _)]

/-- Witness for `C5_demux_partition`: the two-sample, two-quadrant sheet
`c5Doc` under the concrete quadrant map `quadOf5`. -/
theorem C5_demux_partition_witness :
    ∃ outs qs, demuxSampleSheet quadOf5 c5Doc = .ok outs ∧
      qs.Sorted (· < ·) ∧
      List.Forall₂ (fun o q => o.samples ≠ [] ∧
        ∀ r ∈ o.samples, quadOf5 (sget r "destination_well_384") = q) outs qs ∧
      ((outs.map Document.samples).flatten.map fun r =>
        sget r "Sample_ID").Perm
        (c5Doc.samples.map fun s => sget s "Sample_ID") ∧
      (∀ o ∈ outs, ∃ obt j, o.bioinformatics = some obt ∧
        (["Sample_Project", "library_construction_protocol", "experiment_design_description", "contains_replicates"] : List String).indexOf? "contains_replicates" = some j ∧
        obt.columns = (["Sample_Project", "library_construction_protocol", "experiment_design_description", "contains_replicates"] : List String).eraseIdx j ∧
        "contains_replicates" ∉ obt.columns ∧
        obt.rows = (([[Cell.s "P1", Cell.s "LCP", Cell.s "EDD", Cell.b true]] : List (List Cell)).filter fun br =>
          rowCell ["Sample_Project", "library_construction_protocol", "experiment_design_description", "contains_replicates"] br "Sample_Project" ∈
            o.samples.map fun r => Cell.s (sget r "Sample_Project")).map
          fun br => br.eraseIdx j) ∧
      (∀ o ∈ outs, ∃ oct, o.contact = some oct ∧
        oct.columns = ["Sample_Project", "Email"] ∧
        oct.rows = ([[Cell.s "P1", Cell.s "x@y.z"]] : List (List Cell)).filter fun cr =>
          rowCell ["Sample_Project", "Email"] cr "Sample_Project" ∈
            o.samples.map fun r => Cell.s (sget r "Sample_Project")) :=
  C5_demux_partition quadOf5 c5Doc
    { columns := ["Sample_Project", "library_construction_protocol", "experiment_design_description", "contains_replicates"], rows := [[Cell.s "P1", Cell.s "LCP", Cell.s "EDD", Cell.b true]] }
    { columns := ["Sample_Project", "Email"], rows := [[Cell.s "P1", Cell.s "x@y.z"]] }
    "standard_metag" "100" "Metagenomic"
    rfl rfl (by decide) (by decide) (by decide) (by decide)
    (by decide) (by decide) (by decide) (by decide) (by decide) (by decide)
    rfl rfl rfl rfl (by decide)

end Metapool
